import Mathlib

/-!
Verification development for the opportunity-scout extraction-and-ranking
pipeline.  Python source functions are shallowly embedded as executable Lean
definitions: strings become lists of characters, dictionaries with optional
keys become structures with `Option` fields, fallible operations return
`Option` or `Except`, and the external model/search/embedding calls become
explicit parameters carrying the data those calls would have produced.
-/

namespace OppScout

/-- Python strings are modelled as lists of characters. -/
abbrev Str := List Char

/-- Truthiness of an optional Python string: `None` and the empty string are falsy. -/
def strTruthy : Option Str → Bool
  | none => false
  | some s => !s.isEmpty

/-- Whitespace set used by Python for `str.strip` and regex `\s` (ASCII model). -/
def isPySpace (c : Char) : Bool :=
  c == ' ' || c == '\t' || c == '\n' || c == '\r' || c == '\x0b' || c == '\x0c'

/-- Model of a naive `datetime.datetime` value (microseconds are not modelled;
the reference instant is taken at whole-second granularity). -/
structure PyDateTime where
  year : Nat
  month : Nat
  day : Nat
  hour : Nat
  minute : Nat
  second : Nat
deriving DecidableEq, Repr

/-- Gregorian leap-year rule, as used by `datetime`. -/
def isLeapYear (y : Nat) : Bool :=
  (y % 4 == 0 && y % 100 != 0) || y % 400 == 0

/-- Number of days in a month of a given year. -/
def daysInMonth (y m : Nat) : Nat :=
  if m == 2 then (if isLeapYear y then 29 else 28)
  else if m == 4 || m == 6 || m == 9 || m == 11 then 30
  else 31

/-- Days since 1970-01-01 for a valid civil date (standard civil-from-days
algorithm); all intermediate divisions act on nonnegative values. -/
def daysFromCivil (y m d : Nat) : Int :=
  let yi : Int := y
  let y2 : Int := if m ≤ 2 then yi - 1 else yi
  let era : Int := y2 / 400
  let yoe : Int := y2 - era * 400
  let mp : Int := if m ≤ 2 then (m : Int) + 9 else (m : Int) - 3
  let doy : Int := (153 * mp + 2) / 5 + (d : Int) - 1
  let doe : Int := yoe * 365 + yoe / 4 - yoe / 100 + doy
  era * 146097 + doe - 719468

/-- Seconds since the epoch for a `PyDateTime`; `datetime` comparison and
subtraction agree with comparison and subtraction of this value. -/
def PyDateTime.toSecs (t : PyDateTime) : Int :=
  daysFromCivil t.year t.month t.day * 86400 + t.hour * 3600 + t.minute * 60 + t.second

/-- Numeric value of a decimal digit character. -/
def digitVal (c : Char) : Nat := c.toNat - 48

/-- Parse exactly four decimal digits (strptime directive %Y). -/
def parse4Y : Str → Option (Nat × Str)
  | a :: b :: c :: d :: rest =>
    if a.isDigit && b.isDigit && c.isDigit && d.isDigit then
      some (digitVal a * 1000 + digitVal b * 100 + digitVal c * 10 + digitVal d, rest)
    else
      none
  | _ => none

/-- Parse one or two decimal digits whose value lies in [lo, hi], greedily
taking two when two are available.  This matches the strptime number
directives (%m, %d, %H, %M, %S): in those formats every directive is followed
by a non-digit literal or end of input, so regex backtracking to a shorter
digit run can never turn a failure into a success. -/
def parse2or1 (lo hi : Nat) : Str → Option (Nat × Str)
  | a :: b :: rest =>
    if a.isDigit && b.isDigit then
      let v := digitVal a * 10 + digitVal b
      if lo ≤ v && v ≤ hi then some (v, rest) else none
    else if a.isDigit then
      let v := digitVal a
      if lo ≤ v && v ≤ hi then some (v, b :: rest) else none
    else none
  | [a] =>
    if a.isDigit then
      let v := digitVal a
      if lo ≤ v && v ≤ hi then some (v, ([] : Str)) else none
    else none
  | [] => none

/-- Case-insensitive literal character match (strptime compiles its format
regex with IGNORECASE, so literal T and Z also match t and z). -/
def litCI (c : Char) : Str → Option Str
  | x :: rest => if x.toLower == c.toLower then some rest else none
  | [] => none

/-- One or more whitespace characters (a whitespace run in a strptime format
string is compiled to the regex \s+). -/
def wsPlus : Str → Option Str
  | x :: rest => if isPySpace x then some (rest.dropWhile isPySpace) else none
  | [] => none

/-- Full English month names with their numbers (strptime %B, matched
case-insensitively; no full month name is a prefix of another). -/
def monthNamesFull : List (Str × Nat) :=
  [("january".data, 1), ("february".data, 2), ("march".data, 3), ("april".data, 4),
   ("may".data, 5), ("june".data, 6), ("july".data, 7), ("august".data, 8),
   ("september".data, 9), ("october".data, 10), ("november".data, 11), ("december".data, 12)]

/-- Abbreviated English month names with their numbers (strptime %b). -/
def monthNamesAbbr : List (Str × Nat) :=
  [("jan".data, 1), ("feb".data, 2), ("mar".data, 3), ("apr".data, 4),
   ("may".data, 5), ("jun".data, 6), ("jul".data, 7), ("aug".data, 8),
   ("sep".data, 9), ("oct".data, 10), ("nov".data, 11), ("dec".data, 12)]

/-- Match one month name from the given table, case-insensitively. -/
def parseMonthName : List (Str × Nat) → Str → Option (Nat × Str)
  | [], _ => none
  | (nm, v) :: rest, s =>
    if (s.take nm.length).map Char.toLower == nm then some (v, s.drop nm.length)
    else parseMonthName rest s

/-- Construct a datetime value, enforcing the validity checks that the
`datetime` constructor performs beyond the regex ranges: the year is at least
MINYEAR = 1 and the day fits the month. -/
def mkDT (y m d hh mi ss : Nat) : Option PyDateTime :=
  if 1 ≤ y && d ≤ daysInMonth y m then some ⟨y, m, d, hh, mi, ss⟩ else none

/-- strptime with format "%Y-%m-%d". -/
def fmtDateOnly (s : Str) : Option PyDateTime := do
  let (y, s) ← parse4Y s
  let s ← litCI '-' s
  let (m, s) ← parse2or1 1 12 s
  let s ← litCI '-' s
  let (d, s) ← parse2or1 1 31 s
  if s.isEmpty then mkDT y m d 0 0 0 else none

/-- strptime with format "%Y-%m-%dT%H:%M:%S". -/
def fmtDateTimeT (s : Str) : Option PyDateTime := do
  let (y, s) ← parse4Y s
  let s ← litCI '-' s
  let (m, s) ← parse2or1 1 12 s
  let s ← litCI '-' s
  let (d, s) ← parse2or1 1 31 s
  let s ← litCI 'T' s
  let (hh, s) ← parse2or1 0 23 s
  let s ← litCI ':' s
  let (mi, s) ← parse2or1 0 59 s
  let s ← litCI ':' s
  let (ss, s) ← parse2or1 0 59 s
  if s.isEmpty then mkDT y m d hh mi ss else none

/-- strptime with format "%Y-%m-%dT%H:%M:%SZ". -/
def fmtDateTimeTZ (s : Str) : Option PyDateTime := do
  let (y, s) ← parse4Y s
  let s ← litCI '-' s
  let (m, s) ← parse2or1 1 12 s
  let s ← litCI '-' s
  let (d, s) ← parse2or1 1 31 s
  let s ← litCI 'T' s
  let (hh, s) ← parse2or1 0 23 s
  let s ← litCI ':' s
  let (mi, s) ← parse2or1 0 59 s
  let s ← litCI ':' s
  let (ss, s) ← parse2or1 0 59 s
  let s ← litCI 'Z' s
  if s.isEmpty then mkDT y m d hh mi ss else none

/-- strptime with format "%Y-%m-%d %H:%M:%S". -/
def fmtDateTimeSp (s : Str) : Option PyDateTime := do
  let (y, s) ← parse4Y s
  let s ← litCI '-' s
  let (m, s) ← parse2or1 1 12 s
  let s ← litCI '-' s
  let (d, s) ← parse2or1 1 31 s
  let s ← wsPlus s
  let (hh, s) ← parse2or1 0 23 s
  let s ← litCI ':' s
  let (mi, s) ← parse2or1 0 59 s
  let s ← litCI ':' s
  let (ss, s) ← parse2or1 0 59 s
  if s.isEmpty then mkDT y m d hh mi ss else none

/-- strptime with format "%d/%m/%Y". -/
def fmtDMY (s : Str) : Option PyDateTime := do
  let (d, s) ← parse2or1 1 31 s
  let s ← litCI '/' s
  let (m, s) ← parse2or1 1 12 s
  let s ← litCI '/' s
  let (y, s) ← parse4Y s
  if s.isEmpty then mkDT y m d 0 0 0 else none

/-- strptime with format "%m/%d/%Y". -/
def fmtMDY (s : Str) : Option PyDateTime := do
  let (m, s) ← parse2or1 1 12 s
  let s ← litCI '/' s
  let (d, s) ← parse2or1 1 31 s
  let s ← litCI '/' s
  let (y, s) ← parse4Y s
  if s.isEmpty then mkDT y m d 0 0 0 else none

/-- strptime with format "%B %d, %Y". -/
def fmtMonthNameFull (s : Str) : Option PyDateTime := do
  let (m, s) ← parseMonthName monthNamesFull s
  let s ← wsPlus s
  let (d, s) ← parse2or1 1 31 s
  let s ← litCI ',' s
  let s ← wsPlus s
  let (y, s) ← parse4Y s
  if s.isEmpty then mkDT y m d 0 0 0 else none

/-- strptime with format "%b %d, %Y". -/
def fmtMonthNameAbbr (s : Str) : Option PyDateTime := do
  let (m, s) ← parseMonthName monthNamesAbbr s
  let s ← wsPlus s
  let (d, s) ← parse2or1 1 31 s
  let s ← litCI ',' s
  let s ← wsPlus s
  let (y, s) ← parse4Y s
  if s.isEmpty then mkDT y m d 0 0 0 else none

/-- RankingService._parse_date: a falsy argument parses to None, otherwise the
eight accepted formats are tried in order and the first success wins; if none
matches the result is None (never an exception). -/
def parseDate : Option Str → Option PyDateTime
  | none => none
  | some s =>
    if s.isEmpty then none
    else
      (fmtDateOnly s).orElse fun _ =>
      (fmtDateTimeT s).orElse fun _ =>
      (fmtDateTimeTZ s).orElse fun _ =>
      (fmtDateTimeSp s).orElse fun _ =>
      (fmtDMY s).orElse fun _ =>
      (fmtMDY s).orElse fun _ =>
      (fmtMonthNameFull s).orElse fun _ =>
      fmtMonthNameAbbr s

/-- The "dates" sub-dictionary of an opportunity record in backend_b. -/
structure DatesB where
  start_date : Option Str
  end_date : Option Str
  application_deadline : Option Str
deriving DecidableEq, Repr

/-- The empty dictionary used as the default for opportunity.get("dates", ...). -/
def emptyDatesB : DatesB := ⟨none, none, none⟩

/-- The "location" sub-dictionary of an opportunity record in backend_b. -/
structure LocB where
  city : Option Str
  country : Option Str
  is_virtual : Option Bool
deriving DecidableEq, Repr

def emptyLocB : LocB := ⟨none, none, none⟩

/-- The "compensation" sub-dictionary of an opportunity record in backend_b. -/
structure CompB where
  is_paid : Option Bool
  amount : Option ℚ
deriving DecidableEq, Repr

def emptyCompB : CompB := ⟨none, none⟩

/-- The "application" sub-dictionary of an opportunity record in backend_b. -/
structure AppB where
  url : Option Str
deriving DecidableEq, Repr

def emptyAppB : AppB := ⟨none⟩

/-- An opportunity record as consumed by RankingService (a JSON dictionary;
`none` models an absent key, sub-dictionary values are typed). -/
structure OppB where
  id : Option Str
  event_name : Option Str
  event_type : Option Str
  description : Option Str
  dates : Option DatesB
  location : Option LocB
  compensation : Option CompB
  application : Option AppB
  source_url : Option Str
deriving DecidableEq, Repr

/-- RankingService._is_expired: with no (or empty) application deadline, an
opportunity is expired exactly when its start date is present, parses, and is
strictly before the current date; with a nonempty deadline string it is
expired exactly when the deadline parses and is strictly before the current
date. -/
def isExpired (opp : OppB) (current : PyDateTime) : Bool :=
  let dates := opp.dates.getD emptyDatesB
  if !strTruthy dates.application_deadline then
    if strTruthy dates.start_date then
      match parseDate dates.start_date with
      | some sd => decide (sd.toSecs < current.toSecs)
      | none => false
    else false
  else
    match parseDate dates.application_deadline with
    | some dl => decide (dl.toSecs < current.toSecs)
    | none => false

/-- RankingService._days_until_deadline: the signed whole-day difference of
the parsed deadline and the current date (timedelta.days floors), or None when
the deadline is absent, empty, or unparseable. -/
def daysUntilDeadline (opp : OppB) (current : PyDateTime) : Option Int :=
  let dates := opp.dates.getD emptyDatesB
  if !strTruthy dates.application_deadline then none
  else
    match parseDate dates.application_deadline with
    | some dl => some (Int.fdiv (dl.toSecs - current.toSecs) 86400)
    | none => none

/-- One well-formed entry of the parsed scoring response used by
rank_opportunities: a JSON object with an "opportunity_id" string and the
optional score and list fields read with dict.get defaults. -/
structure ScoreEntry where
  opportunity_id : Str
  match_score : Option ℚ
  relevance_score : Option ℚ
  preference_score : Option ℚ
  match_reasons : Option (List Str)
  matching_keywords : Option (List Str)
deriving DecidableEq, Repr

/-- Lookup in the dictionary built by the comprehension over ai_rankings:
when several entries share an opportunity_id, the later insertion wins. -/
def lookupRanking (rs : List ScoreEntry) (oid : Str) : Option ScoreEntry :=
  rs.reverse.find? fun r => decide (r.opportunity_id = oid)

/-- One record of the ranked_opportunities output list. -/
structure RankedOpp where
  opportunity_id : Str
  event_name : Str
  event_type : Option Str
  description : Option Str
  start_date : Option Str
  end_date : Option Str
  application_deadline : Option Str
  location : Option Str
  is_virtual : Bool
  is_paid : Bool
  compensation_amount : Option ℚ
  application_url : Option Str
  source_url : Option Str
  match_score : ℚ
  relevance_score : ℚ
  preference_score : ℚ
  match_reasons : List Str
  matching_keywords : List Str
  is_expired : Bool
  days_until_deadline : Option Int
deriving DecidableEq, Repr

/-- The display location string: city and country joined by ", " when truthy,
None when neither is. -/
def locationString (loc : LocB) : Option Str :=
  let parts : List Str :=
    (if strTruthy loc.city then [loc.city.getD []] else []) ++
    (if strTruthy loc.country then [loc.country.getD []] else [])
  if parts.isEmpty then none else some (List.intercalate ", ".data parts)

/-- The body of the merge loop of rank_opportunities: one RankedOpp per valid
opportunity, with deterministic fields from the opportunity itself and score
fields from the scoring lookup, defaulting to 0.5 scores and empty lists. -/
def mkRanked (current : PyDateTime) (rankings : List ScoreEntry) (opp : OppB) : RankedOpp :=
  let oid := opp.id.getD []
  let ai := lookupRanking rankings oid
  let loc := opp.location.getD emptyLocB
  let comp := opp.compensation.getD emptyCompB
  { opportunity_id := oid
    event_name := opp.event_name.getD "Unknown Event".data
    event_type := opp.event_type
    description := opp.description
    start_date := (opp.dates.getD emptyDatesB).start_date
    end_date := (opp.dates.getD emptyDatesB).end_date
    application_deadline := (opp.dates.getD emptyDatesB).application_deadline
    location := locationString loc
    is_virtual := loc.is_virtual.getD false
    is_paid := comp.is_paid.getD false
    compensation_amount := comp.amount
    application_url := (opp.application.getD emptyAppB).url
    source_url := opp.source_url
    match_score := ((ai.bind fun r => r.match_score).getD (1/2))
    relevance_score := ((ai.bind fun r => r.relevance_score).getD (1/2))
    preference_score := ((ai.bind fun r => r.preference_score).getD (1/2))
    match_reasons := ((ai.bind fun r => r.match_reasons).getD [])
    matching_keywords := ((ai.bind fun r => r.matching_keywords).getD [])
    is_expired := false
    days_until_deadline := daysUntilDeadline opp current }

/-- Stable descending insertion by match_score: the inserted element passes
over strictly greater scores only, so an element earlier in the input stays
ahead of equal scores.  Folding this over the input models
list.sort(key, reverse=True), Python's stable descending sort. -/
def insertDesc (r : RankedOpp) : List RankedOpp → List RankedOpp
  | [] => [r]
  | x :: xs => if r.match_score < x.match_score then x :: insertDesc r xs else r :: x :: xs

/-- Stable descending sort by match_score (model of list.sort with a key and
reverse=True, which Python guarantees to be stable). -/
def sortDesc (l : List RankedOpp) : List RankedOpp := l.foldr insertDesc []

/-- The dictionary returned by rank_opportunities. -/
structure RankResult where
  ranked_opportunities : List RankedOpp
  total_opportunities : Nat
  valid_opportunities : Nat
  expired_opportunities : Nat
deriving DecidableEq, Repr

/-- RankingService.rank_opportunities, with the external scoring call's parsed
response supplied as the `rankings` argument (well-formed entries): filter
expired opportunities, early-return when none are valid, otherwise merge every
valid opportunity with its scoring entry (or defaults) and sort by match_score
descending, stably. -/
def rankOpportunities (current : PyDateTime) (opps : List OppB)
    (rankings : List ScoreEntry) : RankResult :=
  let valid := opps.filter fun o => !isExpired o current
  let expired := opps.length - valid.length
  if valid.isEmpty then
    { ranked_opportunities := []
      total_opportunities := opps.length
      valid_opportunities := 0
      expired_opportunities := expired }
  else
    { ranked_opportunities := sortDesc (valid.map (mkRanked current rankings))
      total_opportunities := opps.length
      valid_opportunities := valid.length
      expired_opportunities := expired }

/-- Parsed JSON values, as produced by json.loads.  Numbers are modelled
exactly as rationals; object members are kept in parse order and read with
last-occurrence-wins lookup, matching dict construction from pairs. -/
inductive Json where
  | null
  | bool (b : Bool)
  | num (q : ℚ)
  | str (s : Str)
  | arr (elems : List Json)
  | obj (members : List (Str × Json))
deriving Repr

/-- JSON inter-token whitespace (the json module skips exactly these four). -/
def isJsonWs (c : Char) : Bool :=
  c == ' ' || c == '\t' || c == '\n' || c == '\r'

/-- Skip JSON whitespace. -/
def skipWs (s : Str) : Str := s.dropWhile isJsonWs

/-- Value of a hexadecimal digit, if any. -/
def hexVal (c : Char) : Option Nat :=
  if c.isDigit then some (digitVal c)
  else if 'a' ≤ c && c ≤ 'f' then some (c.toNat - 87)
  else if 'A' ≤ c && c ≤ 'F' then some (c.toNat - 55)
  else none

/-- Value of four hexadecimal digits. -/
def hex4 (a b c d : Char) : Option Nat := do
  let x1 ← hexVal a
  let x2 ← hexVal b
  let x3 ← hexVal c
  let x4 ← hexVal d
  some (((x1 * 16 + x2) * 16 + x3) * 16 + x4)

/-- Body of a JSON string after the opening quote, in strict mode: unescaped
control characters are rejected, the short escapes and \uXXXX (with surrogate
pairs combined) are decoded.  A lone surrogate maps to the invalid-scalar
default character.  Returns the decoded content and the input after the
closing quote. -/
def parseJStrAux : Nat → Str → Option (Str × Str)
  | 0, _ => none
  | _ + 1, [] => none
  | fuel + 1, c :: rest =>
    if c = '"' then some ([], rest)
    else if c = '\\' then
      match rest with
      | [] => none
      | e :: rest2 =>
        if e = 'u' then
          match rest2 with
          | h1 :: h2 :: h3 :: h4 :: rest3 => do
            let n ← hex4 h1 h2 h3 h4
            if 0xd800 ≤ n && n ≤ 0xdbff then
              match rest3 with
              | '\\' :: 'u' :: g1 :: g2 :: g3 :: g4 :: rest4 => do
                let m ← hex4 g1 g2 g3 g4
                if 0xdc00 ≤ m && m ≤ 0xdfff then do
                  let (out, r) ← parseJStrAux fuel rest4
                  some (Char.ofNat (0x10000 + (n - 0xd800) * 0x400 + (m - 0xdc00)) :: out, r)
                else do
                  let (out, r) ← parseJStrAux fuel rest3
                  some (Char.ofNat n :: out, r)
              | _ => do
                let (out, r) ← parseJStrAux fuel rest3
                some (Char.ofNat n :: out, r)
            else do
              let (out, r) ← parseJStrAux fuel rest3
              some (Char.ofNat n :: out, r)
          | _ => none
        else do
          let d ←
            if e = '"' then some '"'
            else if e = '\\' then some '\\'
            else if e = '/' then some '/'
            else if e = 'b' then some '\x08'
            else if e = 'f' then some '\x0c'
            else if e = 'n' then some '\n'
            else if e = 'r' then some '\r'
            else if e = 't' then some '\t'
            else none
          let (out, r) ← parseJStrAux fuel rest2
          some (d :: out, r)
    else if c.toNat < 32 then none
    else do
      let (out, r) ← parseJStrAux fuel rest
      some (c :: out, r)

/-- JSON string body with sufficient fuel. -/
def parseJString (s : Str) : Option (Str × Str) := parseJStrAux (s.length + 1) s

/-- Natural number denoted by a digit list. -/
def natOfDigits (ds : List Char) : Nat := ds.foldl (fun a c => a * 10 + digitVal c) 0

/-- A JSON number at the head of the input, following the json module's number
regex: optional minus, an integer part without superfluous leading zeros, an
optional fraction (only when at least one digit follows the dot) and an
optional exponent (only when at least one digit follows), evaluated exactly as
a rational. -/
def parseJNumber (s : Str) : Option (ℚ × Str) :=
  let (neg, s1) := match s with | '-' :: r => (true, r) | _ => (false, s)
  match s1 with
  | [] => none
  | c :: cs =>
    if !c.isDigit then none
    else
      let (intDs, s2) :=
        if c = '0' then ([c], cs)
        else (s1.takeWhile Char.isDigit, s1.dropWhile Char.isDigit)
      let (fracDs, s3) :=
        match s2 with
        | '.' :: r =>
          let ds := r.takeWhile Char.isDigit
          if ds.isEmpty then (([] : List Char), s2) else (ds, r.dropWhile Char.isDigit)
        | _ => (([] : List Char), s2)
      let (expNeg, expDs, s4) :=
        match s3 with
        | 'e' :: r | 'E' :: r =>
          let (en, r2) := match r with | '-' :: r3 => (true, r3) | '+' :: r3 => (false, r3) | _ => (false, r)
          let ds := r2.takeWhile Char.isDigit
          if ds.isEmpty then (false, ([] : List Char), s3)
          else (en, ds, r2.dropWhile Char.isDigit)
        | _ => (false, ([] : List Char), s3)
      let base : ℚ := (natOfDigits intDs : ℚ) + (natOfDigits fracDs : ℚ) / ((10 : ℚ) ^ fracDs.length)
      let ex : ℤ := if expNeg then -(natOfDigits expDs : ℤ) else (natOfDigits expDs : ℤ)
      let q : ℚ := base * (10 : ℚ) ^ ex
      some (if neg then -q else q, s4)

mutual

/-- A JSON value at the head of the input (whitespace already skipped),
fuel-bounded; the json module's recursive-descent scanner. -/
def parseValue : Nat → Str → Option (Json × Str)
  | 0, _ => none
  | _ + 1, [] => none
  | fuel + 1, c :: rest =>
    if c = 'n' then
      match rest with | 'u' :: 'l' :: 'l' :: r => some (.null, r) | _ => none
    else if c = 't' then
      match rest with | 'r' :: 'u' :: 'e' :: r => some (.bool true, r) | _ => none
    else if c = 'f' then
      match rest with | 'a' :: 'l' :: 's' :: 'e' :: r => some (.bool false, r) | _ => none
    else if c = '"' then do
      let (cs, r) ← parseJString rest
      some (.str cs, r)
    else if c = '[' then
      let r := skipWs rest
      match r with
      | ']' :: r2 => some (.arr [], r2)
      | _ => do
        let (xs, r2) ← parseElems fuel r
        some (.arr xs, r2)
    else if c = '\x7b' then
      let r := skipWs rest
      match r with
      | '\x7d' :: r2 => some (.obj [], r2)
      | _ => do
        let (kvs, r2) ← parseMembers fuel r
        some (.obj kvs, r2)
    else do
      let (q, r) ← parseJNumber (c :: rest)
      some (.num q, r)

/-- Array elements from the first value onward (empty arrays are handled by
the caller, so a trailing comma is rejected). -/
def parseElems : Nat → Str → Option (List Json × Str)
  | 0, _ => none
  | fuel + 1, s => do
    let (v, r) ← parseValue fuel s
    match skipWs r with
    | ',' :: r2 => do
      let (vs, r3) ← parseElems fuel (skipWs r2)
      some (v :: vs, r3)
    | ']' :: r2 => some ([v], r2)
    | _ => none

/-- Object members from the first key onward (empty objects are handled by the
caller). -/
def parseMembers : Nat → Str → Option (List (Str × Json) × Str)
  | 0, _ => none
  | fuel + 1, s =>
    match s with
    | '"' :: rest => do
      let (k, r) ← parseJString rest
      match skipWs r with
      | ':' :: r3 => do
        let (v, r4) ← parseValue fuel (skipWs r3)
        match skipWs r4 with
        | ',' :: r6 => do
          let (kvs, r7) ← parseMembers fuel (skipWs r6)
          some ((k, v) :: kvs, r7)
        | '\x7d' :: r6 => some ([(k, v)], r6)
        | _ => none
      | _ => none
    | _ => none

end

/-- Model of json.loads: parse one value and require only whitespace after it;
None models a raised JSONDecodeError.  The fuel is one more than the input
length; every recursive call strictly shrinks the remaining input, so the fuel
never runs out on a string json.loads would accept. -/
def jsonLoads (s : Str) : Option Json :=
  match parseValue (s.length + 1) (skipWs s) with
  | some (v, r) => if (skipWs r).isEmpty then some v else none
  | none => none

/-- Dictionary lookup on parsed object members: the last occurrence of a key
wins, as when Python builds a dict from pairs. -/
def objGet (kvs : List (Str × Json)) (k : Str) : Option Json :=
  (kvs.reverse.find? fun p => decide (p.1 = k)).map Prod.snd

/-- Model of str.find for a single character (None models -1). -/
def strFindChar (c : Char) (s : Str) : Option Nat := s.findIdx? (· == c)

/-- Model of str.rfind for a single character (None models -1). -/
def strRFindChar (c : Char) (s : Str) : Option Nat :=
  match strFindChar c s.reverse with
  | some i => some (s.length - 1 - i)
  | none => none

/-- Model of the Python slice s[i:j] for natural bounds. -/
def pySlice (s : Str) (i j : Nat) : Str := (s.drop i).take (j - i)

/-- The literal collection key looked up by the response parser. -/
def oppKey : Str := "opportunities".data

/-- Whether a JSON value is an array (isinstance(x, list) on a parsed value). -/
def Json.isArr : Json → Bool
  | .arr _ => true
  | _ => false

/-- The delimiter-substring fallback shared by both response parsers: slice
from the first occurrence of the opening character to the last occurrence of
the closing character (when both exist, in that order) and attempt json.loads
on the slice.  None covers the three failure modes: opener not found (find
returns -1), the closing index not past the opening one, and a slice that
fails to parse. -/
def bracketParse (raw : Str) (a b : Char) : Option Json :=
  match strFindChar a raw, strRFindChar b raw with
  | some i, some j => if i < j + 1 then jsonLoads (pySlice raw i (j + 1)) else none
  | _, _ => none

/-- AIProcessor._parse_opportunities: direct parse first (arrays returned
as-is, objects unwrapped through their "opportunities" member or wrapped into
a singleton list), then the first-bracket/last-bracket substring, then the
first-brace/last-brace substring, and an empty list when everything fails.
The Python return value is modelled as a Json value; every path except a
non-list "opportunities" member yields an array. -/
def parseOpportunities (raw : Str) : Json :=
  match jsonLoads raw with
  | some (.arr xs) => .arr xs
  | some (.obj kvs) =>
    match objGet kvs oppKey with
    | some v => v
    | none => .arr [.obj kvs]
  | some v => .arr [v]
  | none =>
    match bracketParse raw '[' ']' with
    | some v => v
    | none =>
      match bracketParse raw '\x7b' '\x7d' with
      | some (.obj kvs) =>
        match objGet kvs oppKey with
        | some v => v
        | none => .arr [.obj kvs]
      | _ => .arr []

/-- The JSON-array-recovery ladder at the end of rank_opportunities_with_ai:
direct json.loads, then the first-bracket/last-bracket substring; any parse
failure is swallowed by the surrounding except, which returns the empty list. -/
def parseRankingsResponse (resultText : Str) : Json :=
  match jsonLoads resultText with
  | some v => v
  | none =>
    match bracketParse resultText '[' ']' with
    | some v => v
    | none => .arr []

/-- Exceptions that the ranking merge can raise while indexing into parsed
scoring entries. -/
inductive PyErr where
  | typeError
  | keyError
deriving DecidableEq, Repr

/-- Whether a JSON value may be used as a dict key (lists and dicts are
unhashable). -/
def isHashable : Json → Bool
  | .arr _ => false
  | .obj _ => false
  | _ => true

/-- Python equality between hashable parsed-JSON dict keys; booleans equal
their numeric values. -/
def pyKeyEq : Json → Json → Bool
  | .null, .null => true
  | .bool a, .bool b => a == b
  | .bool a, .num q => decide ((if a then (1 : ℚ) else 0) = q)
  | .num q, .bool a => decide (q = (if a then (1 : ℚ) else 0))
  | .num p, .num q => p == q
  | .str s, .str t => s == t
  | _, _ => false

/-- Assignment d[k] = v on a model dict: overwrite the first matching key in
place (Python keeps the original key and position), else append. -/
def dictInsert (k v : Json) : List (Json × Json) → List (Json × Json)
  | [] => [(k, v)]
  | (k2, v2) :: rest =>
    if pyKeyEq k2 k then (k2, v) :: rest else (k2, v2) :: dictInsert k v rest

/-- d.get(k, dflt) for a string key on a model dict. -/
def dictGetStr (d : List (Json × Json)) (k : Str) (dflt : Json) : Json :=
  match d.find? fun p => pyKeyEq p.1 (.str k) with
  | some p => p.2
  | none => dflt

/-- The subscript r["opportunity_id"] on one parsed scoring entry: a TypeError
when the entry is not a dict, a KeyError when the key is missing, a TypeError
when the value is unhashable (it is about to become a dict key). -/
def extractEntryKey (r : Json) : Except PyErr Json :=
  match r with
  | .obj kvs =>
    match objGet kvs ("opportunity_id".data) with
    | some v => if isHashable v then .ok v else .error .typeError
    | none => .error .keyError
  | _ => .error .typeError

/-- Helper for `buildLookup`, threading the dict built so far. -/
def buildLookupAux (acc : List (Json × Json)) : List Json → Except PyErr (List (Json × Json))
  | [] => .ok acc
  | r :: rs =>
    match extractEntryKey r with
    | .ok k => buildLookupAux (dictInsert k r acc) rs
    | .error e => .error e

/-- The dict comprehension building ai_ranking_lookup from the parsed scoring
entries; it raises on the first malformed entry. -/
def buildLookup (rs : List Json) : Except PyErr (List (Json × Json)) := buildLookupAux [] rs

/-- ai_ranking.get(key, dflt) where ai_ranking is a parsed JSON dict (or the
empty-dict default). -/
def jGetD (j : Json) (k : Str) (d : Json) : Json :=
  match j with
  | .obj kvs => (objGet kvs k).getD d
  | _ => d

/-- One ranked_opportunities record at raw JSON fidelity: the five
score-related fields hold whatever JSON values the scorer supplied. -/
structure RankedOppJ where
  opportunity_id : Str
  event_name : Str
  event_type : Option Str
  description : Option Str
  start_date : Option Str
  end_date : Option Str
  application_deadline : Option Str
  location : Option Str
  is_virtual : Bool
  is_paid : Bool
  compensation_amount : Option ℚ
  application_url : Option Str
  source_url : Option Str
  match_score : Json
  relevance_score : Json
  preference_score : Json
  match_reasons : Json
  matching_keywords : Json
  is_expired : Bool
  days_until_deadline : Option Int

/-- The merge-loop body of rank_opportunities at raw JSON fidelity. -/
def mkRankedJ (current : PyDateTime) (lookup : List (Json × Json)) (opp : OppB) : RankedOppJ :=
  let oid := opp.id.getD []
  let ai := dictGetStr lookup oid (.obj [])
  let loc := opp.location.getD emptyLocB
  let comp := opp.compensation.getD emptyCompB
  { opportunity_id := oid
    event_name := opp.event_name.getD "Unknown Event".data
    event_type := opp.event_type
    description := opp.description
    start_date := (opp.dates.getD emptyDatesB).start_date
    end_date := (opp.dates.getD emptyDatesB).end_date
    application_deadline := (opp.dates.getD emptyDatesB).application_deadline
    location := locationString loc
    is_virtual := loc.is_virtual.getD false
    is_paid := comp.is_paid.getD false
    compensation_amount := comp.amount
    application_url := (opp.application.getD emptyAppB).url
    source_url := opp.source_url
    match_score := jGetD ai ("match_score".data) (.num (1/2))
    relevance_score := jGetD ai ("relevance_score".data) (.num (1/2))
    preference_score := jGetD ai ("preference_score".data) (.num (1/2))
    match_reasons := jGetD ai ("match_reasons".data) (.arr [])
    matching_keywords := jGetD ai ("matching_keywords".data) (.arr [])
    is_expired := false
    days_until_deadline := daysUntilDeadline opp current }

/-- Numeric view of a JSON value for Python comparison operators (a bool is
its integer value). -/
def jsonAsNum : Json → Option ℚ
  | .num q => some q
  | .bool b => some (if b then 1 else 0)
  | _ => none

/-- Python a < b on parsed JSON sort keys: numbers and booleans compare
numerically, strings lexicographically, anything else raises TypeError. -/
def pyLtJ (a b : Json) : Except PyErr Bool :=
  match jsonAsNum a, jsonAsNum b with
  | some x, some y => .ok (decide (x < y))
  | _, _ =>
    match a, b with
    | .str s, .str t => .ok (decide (s < t))
    | _, _ => .error .typeError

/-- Stable descending insertion at raw JSON fidelity; comparisons may raise. -/
def insertDescJ (r : RankedOppJ) : List RankedOppJ → Except PyErr (List RankedOppJ)
  | [] => .ok [r]
  | x :: xs => do
    let b ← pyLtJ r.match_score x.match_score
    if b then do
      let t ← insertDescJ r xs
      .ok (x :: t)
    else
      .ok (r :: x :: xs)

/-- Stable descending sort by match_score at raw JSON fidelity. -/
def sortDescJ : List RankedOppJ → Except PyErr (List RankedOppJ)
  | [] => .ok []
  | x :: xs => do
    let t ← sortDescJ xs
    insertDescJ x t

/-- The dictionary returned by rank_opportunities, raw JSON view. -/
structure RankResultJ where
  ranked_opportunities : List RankedOppJ
  total_opportunities : Nat
  valid_opportunities : Nat
  expired_opportunities : Nat

/-- RankingService.rank_opportunities at raw JSON fidelity: the parsed
scoring response is an arbitrary list of JSON values, and building the
ranking lookup raises on a malformed entry.  The early return for an empty
valid set happens before the scoring call and lookup construction. -/
def rankOpportunitiesJ (current : PyDateTime) (opps : List OppB)
    (aiRankings : List Json) : Except PyErr RankResultJ :=
  let valid := opps.filter fun o => !isExpired o current
  let expired := opps.length - valid.length
  if valid.isEmpty then
    .ok { ranked_opportunities := []
          total_opportunities := opps.length
          valid_opportunities := 0
          expired_opportunities := expired }
  else do
    let lookup ← buildLookup aiRankings
    let sorted ← sortDescJ (valid.map (mkRankedJ current lookup))
    .ok { ranked_opportunities := sorted
          total_opportunities := opps.length
          valid_opportunities := valid.length
          expired_opportunities := expired }

/-- Model of str.rfind for a substring: the greatest index at which `sep`
occurs in `s`, if any. -/
def rfindSub (sep s : Str) : Option Nat :=
  ((List.range (s.length + 1)).filter fun i => sep.isPrefixOf (s.drop i)).getLast?

/-- Python str.strip: drop leading and trailing whitespace. -/
def pyStrip (s : Str) : Str :=
  ((s.dropWhile isPySpace).reverse.dropWhile isPySpace).reverse

/-- The five sentence separators tried in order by chunk_text (each two
characters long). -/
def sentenceSeps : List Str :=
  [['.', ' '], ['.', '\n'], ['!', ' '], ['?', ' '], ['\n', '\n']]

/-- The for-else over sentence separators: the first separator (in list
order) whose last occurrence in the window lies strictly past chunk_size / 2
determines the cut, as start + index + len(sep). -/
def sentenceEnd (window : Str) (cs start : Nat) : List Str → Option Nat
  | [] => none
  | sep :: rest =>
    match rfindSub sep window with
    | some i => if cs / 2 < i then some (start + i + sep.length) else sentenceEnd window cs start rest
    | none => sentenceEnd window cs start rest

/-- The cut position computed by one iteration of the chunk_text loop: the
raw window end, unless the window end is inside the text and a sentence
separator (or, failing that, a space) past the midpoint is found. -/
def computeEnd (text : Str) (cs start : Nat) : Nat :=
  if start + cs < text.length then
    match sentenceEnd (pySlice text start (start + cs)) cs start sentenceSeps with
    | some e => e
    | none =>
      match strRFindChar ' ' (pySlice text start (start + cs)) with
      | some i => if cs / 2 < i then start + i + 1 else start + cs
      | none => start + cs
  else start + cs

/-- The while loop of chunk_text, fuel-bounded because the loop does not
terminate for every parameter combination: each iteration cuts at
computeEnd, appends the stripped chunk when nonempty, and moves start to
end - overlap clamped at zero.  None means the fuel ran out. -/
def chunkLoop (text : Str) (cs ov : Nat) : Nat → Nat → List Str → Option (List Str)
  | 0, _, _ => none
  | fuel + 1, start, acc =>
    if start < text.length then
      let e := computeEnd text cs start
      let chunk := pyStrip (pySlice text start e)
      let acc2 := if chunk.isEmpty then acc else acc ++ [chunk]
      chunkLoop text cs ov fuel (e - ov) acc2
    else some acc

/-- EmbeddingService.chunk_text with fuel text.length + 1: enough for any run
in which the window start strictly increases each iteration, so a None result
exhibits a repeated or non-advancing loop state. -/
def chunkText (text : Str) (cs ov : Nat) : Option (List Str) :=
  if text.isEmpty then some []
  else if text.length ≤ cs then some [text]
  else chunkLoop text cs ov (text.length + 1) 0 []

/-- One value of a raw record dictionary key: the key may be missing, hold
JSON null, or hold a type-correct value.  (Values of the wrong type would
fail pydantic validation and are outside the claims considered here.) -/
inductive RawField (α : Type) where
  | absent
  | null
  | val (a : α)
deriving DecidableEq, Repr

/-- The opportunity-type enumeration. -/
inductive OpportunityType where
  | conference | seminar | webinar | podcast | panel | workshop | keynote | other
deriving DecidableEq, Repr

/-- The compensation-type enumeration. -/
inductive CompensationType where
  | paid | honorarium | travel_only | unpaid | negotiable | unknown
deriving DecidableEq, Repr

/-- Raw dates sub-dictionary. -/
structure RawDateInfo where
  start_date : RawField Str
  end_date : RawField Str
  application_deadline : RawField Str
deriving DecidableEq, Repr

/-- Raw location sub-dictionary. -/
structure RawLocation where
  venue : RawField Str
  city : RawField Str
  state : RawField Str
  country : RawField Str
  is_virtual : RawField Bool
  has_virtual_option : RawField Bool
deriving DecidableEq, Repr

/-- Raw compensation sub-dictionary. -/
structure RawCompensation where
  is_paid : RawField Bool
  compensation_type : RawField CompensationType
  amount : RawField ℚ
  currency : RawField Str
  includes_travel : RawField Bool
  includes_accommodation : RawField Bool
  details : RawField Str
deriving DecidableEq, Repr

/-- Raw application sub-dictionary. -/
structure RawApplication where
  url : RawField Str
  contact_email : RawField Str
  requirements : RawField (List Str)
deriving DecidableEq, Repr

/-- One raw opportunity record as handed to the Opportunity constructor. -/
structure RawOpportunity where
  id : RawField Str
  event_name : RawField Str
  event_type : RawField OpportunityType
  description : RawField Str
  dates : RawField RawDateInfo
  location : RawField RawLocation
  compensation : RawField RawCompensation
  application : RawField RawApplication
  target_audience : RawField (List Str)
  expected_audience_size : RawField Str
  keywords_matched : RawField (List Str)
  source_url : RawField Str
  confidence_score : RawField ℚ
deriving DecidableEq, Repr

/-- Validated DateInfo model (all leaves Optional with default None). -/
structure DateInfo where
  start_date : Option Str
  end_date : Option Str
  application_deadline : Option Str
deriving DecidableEq, Repr

/-- Validated Location model; the two booleans are Optional[bool] in the
annotation, hence Option Bool here. -/
structure Location where
  venue : Option Str
  city : Option Str
  state : Option Str
  country : Option Str
  is_virtual : Option Bool
  has_virtual_option : Option Bool
deriving DecidableEq, Repr

/-- Validated Compensation model. -/
structure Compensation where
  is_paid : Option Bool
  compensation_type : Option CompensationType
  amount : Option ℚ
  currency : Option Str
  includes_travel : Option Bool
  includes_accommodation : Option Bool
  details : Option Str
deriving DecidableEq, Repr

/-- Validated ApplicationInfo model. -/
structure ApplicationInfo where
  url : Option Str
  contact_email : Option Str
  requirements : Option (List Str)
deriving DecidableEq, Repr

/-- Validated Opportunity model; every annotation that is Optional in the
pydantic model is an Option here, so the never-null invariants are stated
facts about constructed values rather than typing artefacts. -/
structure Opportunity where
  id : Str
  event_name : Str
  event_type : Option OpportunityType
  description : Option Str
  dates : Option DateInfo
  location : Option Location
  compensation : Option Compensation
  application : Option ApplicationInfo
  target_audience : Option (List Str)
  expected_audience_size : Option Str
  keywords_matched : Option (List Str)
  source_url : Option Str
  confidence_score : Option ℚ
deriving DecidableEq, Repr

/-- A plain optional leaf: absent and null both validate to None. -/
def rawOpt {α : Type} : RawField α → Option α
  | .absent => none
  | .null => none
  | .val a => some a

/-- A leaf whose null and absent states collapse to a concrete default, such
as the booleans rewritten in local model inits and fields with non-None
defaults. -/
def rawD {α : Type} (d : α) : RawField α → α
  | .absent => d
  | .null => d
  | .val a => a

/-- Location(**data): nulls in boolean fields become False before validation,
absent booleans take their False default. -/
def mkLocation (r : RawLocation) : Location :=
  { venue := rawOpt r.venue
    city := rawOpt r.city
    state := rawOpt r.state
    country := rawOpt r.country
    is_virtual := some (rawD false r.is_virtual)
    has_virtual_option := some (rawD false r.has_virtual_option) }

/-- Compensation(**data): nulls in boolean fields and compensation_type get
their defaults; currency defaults to "USD" only when absent, an explicit null
remains None. -/
def mkCompensation (r : RawCompensation) : Compensation :=
  { is_paid := some (rawD false r.is_paid)
    compensation_type := some (rawD .unknown r.compensation_type)
    amount := rawOpt r.amount
    currency := match r.currency with
      | .absent => some ("USD".data)
      | .null => none
      | .val s => some s
    includes_travel := some (rawD false r.includes_travel)
    includes_accommodation := some (rawD false r.includes_accommodation)
    details := rawOpt r.details }

/-- ApplicationInfo(**data): a null requirements list becomes empty, an
absent one takes the empty default factory. -/
def mkApplication (r : RawApplication) : ApplicationInfo :=
  { url := rawOpt r.url
    contact_email := rawOpt r.contact_email
    requirements := some (rawD [] r.requirements) }

/-- DateInfo(**data). -/
def mkDateInfo (r : RawDateInfo) : DateInfo :=
  { start_date := rawOpt r.start_date
    end_date := rawOpt r.end_date
    application_deadline := rawOpt r.application_deadline }

def emptyRawDateInfo : RawDateInfo := ⟨.absent, .absent, .absent⟩
def emptyRawLocation : RawLocation := ⟨.absent, .absent, .absent, .absent, .absent, .absent⟩
def emptyRawCompensation : RawCompensation :=
  ⟨.absent, .absent, .absent, .absent, .absent, .absent, .absent⟩
def emptyRawApplication : RawApplication := ⟨.absent, .absent, .absent⟩

/-- A nested sub-record value after the Opportunity init: null becomes the
empty dict, absent triggers the default factory (also the empty dict). -/
def rawSub {α : Type} (empty : α) : RawField α → α
  | .absent => empty
  | .null => empty
  | .val a => a

/-- The validated record shared by every successful Opportunity construction:
nested sub-records and list fields are always materialised as some value. -/
def mkOpportunityCore (r : RawOpportunity) (ids en : Str) (cs : Option ℚ) : Opportunity :=
  { id := ids
    event_name := en
    event_type := some (rawD .other r.event_type)
    description := rawOpt r.description
    dates := some (mkDateInfo (rawSub emptyRawDateInfo r.dates))
    location := some (mkLocation (rawSub emptyRawLocation r.location))
    compensation := some (mkCompensation (rawSub emptyRawCompensation r.compensation))
    application := some (mkApplication (rawSub emptyRawApplication r.application))
    target_audience := some (rawD [] r.target_audience)
    expected_audience_size := rawOpt r.expected_audience_size
    keywords_matched := some (rawD [] r.keywords_matched)
    source_url := rawOpt r.source_url
    confidence_score := cs }

/-- Opportunity(**data): the init rewrites nulls in nested records, lists,
event_type and confidence_score, then pydantic validates: id and event_name
are required non-Optional strings, and a present confidence_score must lie in
[0, 1] or a ValidationError is raised. -/
def mkOpportunity (r : RawOpportunity) : Except Unit Opportunity :=
  match r.id with
  | .val ids =>
    match r.event_name with
    | .val en =>
      match r.confidence_score with
      | .val q =>
        if 0 ≤ q && q ≤ 1 then .ok (mkOpportunityCore r ids en (some q))
        else .error ()
      | _ => .ok (mkOpportunityCore r ids en (some (1/2 : ℚ)))
    | _ => .error ()
  | _ => .error ()

/-- Dump of an optional value back to a dictionary entry (pydantic dict()
serialises every field; None serialises as null). -/
def optRaw {α : Type} : Option α → RawField α
  | none => .null
  | some a => .val a

def dumpDateInfo (d : DateInfo) : RawDateInfo :=
  ⟨optRaw d.start_date, optRaw d.end_date, optRaw d.application_deadline⟩

def dumpLocation (l : Location) : RawLocation :=
  ⟨optRaw l.venue, optRaw l.city, optRaw l.state, optRaw l.country,
   optRaw l.is_virtual, optRaw l.has_virtual_option⟩

def dumpCompensation (c : Compensation) : RawCompensation :=
  ⟨optRaw c.is_paid, optRaw c.compensation_type, optRaw c.amount, optRaw c.currency,
   optRaw c.includes_travel, optRaw c.includes_accommodation, optRaw c.details⟩

def dumpApplication (a : ApplicationInfo) : RawApplication :=
  ⟨optRaw a.url, optRaw a.contact_email, optRaw a.requirements⟩

/-- Dictionary form of a validated Opportunity (pydantic dict()). -/
def dumpOpportunity (o : Opportunity) : RawOpportunity :=
  { id := .val o.id
    event_name := .val o.event_name
    event_type := optRaw o.event_type
    description := optRaw o.description
    dates := match o.dates with | some d => .val (dumpDateInfo d) | none => .null
    location := match o.location with | some l => .val (dumpLocation l) | none => .null
    compensation := match o.compensation with | some c => .val (dumpCompensation c) | none => .null
    application := match o.application with | some a => .val (dumpApplication a) | none => .null
    target_audience := optRaw o.target_audience
    expected_audience_size := optRaw o.expected_audience_size
    keywords_matched := optRaw o.keywords_matched
    source_url := optRaw o.source_url
    confidence_score := optRaw o.confidence_score }

/-- Truthiness of a raw string field: absent, null and "" are falsy. -/
def rawTruthyStr : RawField Str → Bool
  | .val s => !s.isEmpty
  | _ => false

/-- Truthiness of a raw list field: absent, null and [] are falsy. -/
def rawTruthyList : RawField (List Str) → Bool
  | .val l => !l.isEmpty
  | _ => false

/-- The id fix: a falsy id (absent, null or empty) is replaced by a generated
"opp_" token, where u stands for the uuid4 hex prefix. -/
def fixId (u : Str) (raw : RawOpportunity) : RawOpportunity :=
  if rawTruthyStr raw.id then raw else { raw with id := .val ("opp_".data ++ u) }

/-- The in-place fixes _validate_and_fix_opportunities applies to one raw
record before construction: the id fix, then a falsy event_name skips the
record, then a falsy keywords_matched is replaced by the search keywords. -/
def fixRecord (u : Str) (keywords : List Str) (raw : RawOpportunity) : Option RawOpportunity :=
  if !rawTruthyStr (fixId u raw).event_name then none
  else
    some (if rawTruthyList (fixId u raw).keywords_matched then fixId u raw
          else { fixId u raw with keywords_matched := .val keywords })

/-- One iteration of _validate_and_fix_opportunities: fix the record, then
construct the Opportunity, skipping the record when construction raises. -/
def validateFixOne (u : Str) (keywords : List Str) (raw : RawOpportunity) : Option Opportunity :=
  match fixRecord u keywords raw with
  | none => none
  | some r =>
    match mkOpportunity r with
    | .ok o => some o
    | .error _ => none

/-- AIProcessor._validate_and_fix_opportunities over a record list, with the
uuid supply indexed by record position. -/
def validateAndFix (us : Nat → Str) (keywords : List Str) : List RawOpportunity → List Opportunity :=
  go 0
where
  go (i : Nat) : List RawOpportunity → List Opportunity
    | [] => []
    | r :: rs =>
      match validateFixOne (us i) keywords r with
      | some o => o :: go (i + 1) rs
      | none => go (i + 1) rs

/-! Theorems. -/

/-- A reference instant used by concrete witnesses. -/
def now0 : PyDateTime := ⟨2025, 6, 1, 12, 0, 0⟩

/-- C4.
For every reference instant, an opportunity is judged expired by _is_expired
exactly when its application deadline, when present (nonempty), parses and is
strictly earlier than the reference instant, or, when no deadline is present,
its start date is present, parses, and is strictly earlier than the reference
instant; with neither date it is never expired.  In particular a deadline that
parses to a date not earlier than the reference instant makes the opportunity
not expired regardless of its start date. -/
theorem is_expired_characterization (opp : OppB) (now : PyDateTime) :
    (isExpired opp now = true ↔
      (strTruthy (opp.dates.getD emptyDatesB).application_deadline = true ∧
        ∃ d, parseDate (opp.dates.getD emptyDatesB).application_deadline = some d ∧
          d.toSecs < now.toSecs) ∨
      (strTruthy (opp.dates.getD emptyDatesB).application_deadline = false ∧
        strTruthy (opp.dates.getD emptyDatesB).start_date = true ∧
        ∃ d, parseDate (opp.dates.getD emptyDatesB).start_date = some d ∧
          d.toSecs < now.toSecs)) ∧
    (∀ d, strTruthy (opp.dates.getD emptyDatesB).application_deadline = true →
      parseDate (opp.dates.getD emptyDatesB).application_deadline = some d →
      now.toSecs ≤ d.toSecs → isExpired opp now = false) := by
  constructor
  · unfold isExpired
    cases hdl : strTruthy (opp.dates.getD emptyDatesB).application_deadline with
    | false =>
      simp only [hdl, Bool.not_false, if_true, Bool.false_eq_true, false_and, false_or]
      cases hsd : strTruthy (opp.dates.getD emptyDatesB).start_date with
      | false => simp [hsd]
      | true =>
        simp only [hsd, if_true, true_and]
        cases hp : parseDate (opp.dates.getD emptyDatesB).start_date with
        | none => simp [hp]
        | some d => simp [hp]
    | true =>
      simp only [hdl, Bool.not_true, if_false, Bool.true_eq_false, false_and, or_false, true_and]
      cases hp : parseDate (opp.dates.getD emptyDatesB).application_deadline with
      | none => simp [hp]
      | some d => simp [hp]
  · intro d h1 h2 h3
    unfold isExpired
    simp [h1, h2, not_lt.mpr h3]

/-- Witness opportunity for C4: the deadline parses to a far-future date while
the start date lies in the past. -/
def futureDeadlineOpp : OppB :=
  ⟨some ("f".data), none, none, none,
   some ⟨some ("2000-01-01".data), none, some ("2099-12-31".data)⟩,
   none, none, none, none⟩

/-- Witness for C4: a 2099 deadline with a 2000 start date is not expired in
2025. -/
theorem is_expired_characterization_witness : isExpired futureDeadlineOpp now0 = false :=
  (is_expired_characterization futureDeadlineOpp now0).2 ⟨2099, 12, 31, 0, 0, 0⟩
    (by decide) (by decide) (by decide)

/-- C10.
When the deadline string is present (nonempty) but matches none of the
accepted formats, _is_expired returns false regardless of the start date and
_days_until_deadline returns no value. -/
theorem unparseable_deadline_not_expired (opp : OppB) (now : PyDateTime)
    (h1 : strTruthy (opp.dates.getD emptyDatesB).application_deadline = true)
    (h2 : parseDate (opp.dates.getD emptyDatesB).application_deadline = none) :
    isExpired opp now = false ∧ daysUntilDeadline opp now = none := by
  unfold isExpired daysUntilDeadline
  simp [h1, h2]

/-- Witness opportunity for C10: an unparseable deadline together with a past,
parseable start date. -/
def badDeadlineOpp : OppB :=
  ⟨some ("b".data), none, none, none,
   some ⟨some ("2000-01-01".data), none, some ("soon".data)⟩,
   none, none, none, none⟩

/-- Witness for C10. -/
theorem unparseable_deadline_not_expired_witness :
    isExpired badDeadlineOpp now0 = false ∧ daysUntilDeadline badDeadlineOpp now0 = none :=
  unparseable_deadline_not_expired badDeadlineOpp now0 (by decide) (by decide)

lemma insertDesc_perm (r : RankedOpp) (l : List RankedOpp) :
    (insertDesc r l).Perm (r :: l) := by
  induction l with
  | nil => simp [insertDesc]
  | cons x xs ih =>
    unfold insertDesc
    by_cases h : r.match_score < x.match_score
    · simp only [h, if_true]
      exact (ih.cons x).trans (List.Perm.swap r x xs)
    · simp [h]

lemma sortDesc_perm (l : List RankedOpp) : (sortDesc l).Perm l := by
  induction l with
  | nil => simp [sortDesc]
  | cons x xs ih =>
    exact (insertDesc_perm x (sortDesc xs)).trans (ih.cons x)

lemma insertDesc_pairwise (r : RankedOpp) (l : List RankedOpp)
    (h : List.Pairwise (fun a b => b.match_score ≤ a.match_score) l) :
    List.Pairwise (fun a b => b.match_score ≤ a.match_score) (insertDesc r l) := by
  induction l with
  | nil => simp [insertDesc]
  | cons x xs ih =>
    unfold insertDesc
    by_cases hc : r.match_score < x.match_score
    · simp only [hc, if_true]
      refine List.Pairwise.cons ?_ (ih h.tail)
      intro y hy
      rcases List.mem_cons.mp ((insertDesc_perm r xs).mem_iff.mp hy) with hyr | hyx
      · subst hyr; exact le_of_lt hc
      · exact List.rel_of_pairwise_cons h hyx
    · simp only [hc, if_false]
      refine List.Pairwise.cons ?_ h
      intro y hy
      rcases List.mem_cons.mp hy with hyx | hyxs
      · subst hyx; exact not_lt.mp hc
      · exact le_trans (List.rel_of_pairwise_cons h hyxs) (not_lt.mp hc)

lemma sortDesc_pairwise (l : List RankedOpp) :
    List.Pairwise (fun a b => b.match_score ≤ a.match_score) (sortDesc l) := by
  induction l with
  | nil => simp [sortDesc]
  | cons x xs ih => exact insertDesc_pairwise x (sortDesc xs) ih

lemma insertDesc_filter_eq (r : RankedOpp) (l : List RankedOpp) (q : ℚ)
    (hr : r.match_score = q) :
    (insertDesc r l).filter (fun e => decide (e.match_score = q)) =
      r :: l.filter (fun e => decide (e.match_score = q)) := by
  induction l with
  | nil => simp [insertDesc, hr]
  | cons x xs ih =>
    unfold insertDesc
    by_cases hc : r.match_score < x.match_score
    · have hx : ¬(x.match_score = q) := fun hxq => absurd hc (by rw [hxq, ← hr]; exact lt_irrefl _)
      rw [if_pos hc]
      simp [List.filter_cons, hx, ih]
    · rw [if_neg hc]
      simp [List.filter_cons, hr]

lemma insertDesc_filter_ne (r : RankedOpp) (l : List RankedOpp) (q : ℚ)
    (hr : r.match_score ≠ q) :
    (insertDesc r l).filter (fun e => decide (e.match_score = q)) =
      l.filter (fun e => decide (e.match_score = q)) := by
  induction l with
  | nil => simp [insertDesc, hr]
  | cons x xs ih =>
    unfold insertDesc
    by_cases hc : r.match_score < x.match_score
    · rw [if_pos hc]
      by_cases hx : x.match_score = q <;> simp [List.filter_cons, hx, ih]
    · rw [if_neg hc]
      simp [List.filter_cons, hr]

lemma sortDesc_filter (l : List RankedOpp) (q : ℚ) :
    (sortDesc l).filter (fun e => decide (e.match_score = q)) =
      l.filter (fun e => decide (e.match_score = q)) := by
  induction l with
  | nil => simp [sortDesc]
  | cons x xs ih =>
    show (insertDesc x (sortDesc xs)).filter _ = _
    by_cases hx : x.match_score = q
    · rw [insertDesc_filter_eq x (sortDesc xs) q hx, ih, List.filter_cons]
      simp [hx]
    · rw [insertDesc_filter_ne x (sortDesc xs) q hx, ih, List.filter_cons]
      simp [hx]

/-- C1.
rank_opportunities returns exactly one ranked entry per non-expired input
opportunity (in particular, a scoring response covering only a subset drops
nothing), the output is sorted by match_score descending, equal scores retain
the merge-input order (stable sort, expressed by filter-invariance at every
score), and every valid opportunity absent from the scoring response gets
0.5 for all three scores and empty reason/keyword lists. -/
theorem rank_opportunities_complete_sorted_stable (current : PyDateTime)
    (opps : List OppB) (rankings : List ScoreEntry) :
    (rankOpportunities current opps rankings).ranked_opportunities.length =
        (opps.filter fun o => !isExpired o current).length ∧
    List.Pairwise (fun a b => b.match_score ≤ a.match_score)
        (rankOpportunities current opps rankings).ranked_opportunities ∧
    (∀ q : ℚ,
      (rankOpportunities current opps rankings).ranked_opportunities.filter
          (fun e => decide (e.match_score = q)) =
        ((opps.filter fun o => !isExpired o current).map
            (mkRanked current rankings)).filter (fun e => decide (e.match_score = q))) ∧
    (∀ opp, opp ∈ (opps.filter fun o => !isExpired o current) →
      mkRanked current rankings opp ∈
        (rankOpportunities current opps rankings).ranked_opportunities ∧
      (lookupRanking rankings (opp.id.getD []) = none →
        (mkRanked current rankings opp).match_score = 1/2 ∧
        (mkRanked current rankings opp).relevance_score = 1/2 ∧
        (mkRanked current rankings opp).preference_score = 1/2 ∧
        (mkRanked current rankings opp).match_reasons = [] ∧
        (mkRanked current rankings opp).matching_keywords = [])) := by
  by_cases hv : (opps.filter fun o => !isExpired o current).isEmpty
  · have hnil : (opps.filter fun o => !isExpired o current) = [] :=
      List.isEmpty_iff.mp hv
    unfold rankOpportunities
    simp [hv, hnil]
  · have hranked : (rankOpportunities current opps rankings).ranked_opportunities =
        sortDesc ((opps.filter fun o => !isExpired o current).map
          (mkRanked current rankings)) := by
      unfold rankOpportunities
      simp [hv]
    refine ⟨?_, ?_, ?_, ?_⟩
    · rw [hranked, (sortDesc_perm _).length_eq, List.length_map]
    · rw [hranked]; exact sortDesc_pairwise _
    · intro q; rw [hranked]; exact sortDesc_filter _ q
    · intro opp hopp
      constructor
      · rw [hranked]
        exact (sortDesc_perm _).mem_iff.mpr (List.mem_map_of_mem _ hopp)
      · intro hmiss
        simp [mkRanked, hmiss]

/-- Witness opportunities for C1: two valid opportunities, a scoring response
covering only the first. -/
def oppA : OppB :=
  ⟨some ("a".data), some ("Conf A".data), none, none, none, none, none, none, none⟩

def oppB2 : OppB :=
  ⟨some ("b".data), some ("Conf B".data), none, none, none, none, none, none, none⟩

def entryA : ScoreEntry :=
  ⟨"a".data, some (9/10), some (9/10), some (8/10), some [], some []⟩

/-- Witness for C1: with two valid opportunities and a scoring response naming
only "a", the ranked list still has two entries and the unscored "b" record
carries the 0.5 defaults and sits in the output. -/
theorem rank_opportunities_complete_sorted_stable_witness :
    (rankOpportunities now0 [oppA, oppB2] [entryA]).ranked_opportunities.length = 2 ∧
    (mkRanked now0 [entryA] oppB2).match_score = 1/2 ∧
    mkRanked now0 [entryA] oppB2 ∈
      (rankOpportunities now0 [oppA, oppB2] [entryA]).ranked_opportunities := by
  have h := rank_opportunities_complete_sorted_stable now0 [oppA, oppB2] [entryA]
  have hm := h.2.2.2 oppB2 (by decide)
  exact ⟨by rw [h.1]; decide, (hm.2 (by decide)).1, hm.1⟩

/-- A minimal valid opportunity (no dates, hence never expired). -/
def oppPlain : OppB :=
  ⟨some ("a".data), some ("Conf".data), none, none, none, none, none, none, none⟩

/-- C2 counterexample.
With one valid opportunity and a scoring response consisting of a single
well-formed JSON object that merely lacks the opportunity_id field,
rank_opportunities raises a KeyError while building the ranking lookup
instead of returning a fully-populated ranked list: the claim fails for
malformed individual entries. -/
theorem rank_opportunities_malformed_entry_raises :
    rankOpportunitiesJ now0 [oppPlain] [Json.obj []] = .error PyErr.keyError := by rfl

lemma insertDescJ_const_half (r : RankedOppJ) (l : List RankedOppJ)
    (hr : r.match_score = Json.num (1/2))
    (hl : ∀ e ∈ l, e.match_score = Json.num (1/2)) :
    insertDescJ r l = .ok (r :: l) := by
  cases l with
  | nil => rfl
  | cons x xs =>
    unfold insertDescJ
    rw [hr, hl x (List.mem_cons_self x xs)]
    have hlt : pyLtJ (Json.num (1/2)) (Json.num (1/2)) = .ok false := by
      simp [pyLtJ, jsonAsNum]
    rw [hlt]
    rfl

lemma sortDescJ_const_half (l : List RankedOppJ)
    (hl : ∀ e ∈ l, e.match_score = Json.num (1/2)) :
    sortDescJ l = .ok l := by
  induction l with
  | nil => rfl
  | cons x xs ih =>
    unfold sortDescJ
    rw [ih fun e he => hl e (List.mem_cons_of_mem x he)]
    show insertDescJ x xs = .ok (x :: xs)
    exact insertDescJ_const_half x xs (hl x (List.mem_cons_self x xs))
      fun e he => hl e (List.mem_cons_of_mem x he)

lemma mkRankedJ_empty_lookup (current : PyDateTime) (opp : OppB) :
    (mkRankedJ current [] opp).match_score = Json.num (1/2) ∧
    (mkRankedJ current [] opp).relevance_score = Json.num (1/2) ∧
    (mkRankedJ current [] opp).preference_score = Json.num (1/2) ∧
    (mkRankedJ current [] opp).match_reasons = Json.arr [] ∧
    (mkRankedJ current [] opp).matching_keywords = Json.arr [] := by
  simp [mkRankedJ, dictGetStr, jGetD, objGet]

/-- C2 as amended.
When the external scoring call fails outright (error, timeout, or text from
which no JSON can be recovered), rank_opportunities_with_ai yields the empty
ranking list and rank_opportunities still returns, without raising, a ranked
list with one entry per valid opportunity in which every score defaults to
0.5 and the reason/keyword lists are empty; the guarantee does not extend to
malformed individual entries in a recovered list, which raise while the
lookup is built. -/
theorem rank_opportunities_outright_failure_fallback (now : PyDateTime) (opps : List OppB) :
    (∃ res, rankOpportunitiesJ now opps [] = .ok res ∧
      res.ranked_opportunities.length = (opps.filter fun o => !isExpired o now).length ∧
      ∀ e ∈ res.ranked_opportunities,
        e.match_score = Json.num (1/2) ∧ e.relevance_score = Json.num (1/2) ∧
        e.preference_score = Json.num (1/2) ∧ e.match_reasons = Json.arr [] ∧
        e.matching_keywords = Json.arr []) ∧
    (∀ s, jsonLoads s = none → bracketParse s '[' ']' = none →
      parseRankingsResponse s = Json.arr []) := by
  constructor
  · by_cases hv : (opps.filter fun o => !isExpired o now).isEmpty
    · refine ⟨⟨[], opps.length, 0,
        opps.length - (opps.filter fun o => !isExpired o now).length⟩, ?_, ?_, ?_⟩
      · unfold rankOpportunitiesJ
        rw [if_pos hv]
      · simp [List.isEmpty_iff.mp hv]
      · simp
    · have hmem : ∀ e ∈ (opps.filter fun o => !isExpired o now).map (mkRankedJ now []),
          e.match_score = Json.num (1/2) ∧ e.relevance_score = Json.num (1/2) ∧
          e.preference_score = Json.num (1/2) ∧ e.match_reasons = Json.arr [] ∧
          e.matching_keywords = Json.arr [] := by
        intro e he
        rcases List.mem_map.mp he with ⟨opp, _, rfl⟩
        exact mkRankedJ_empty_lookup now opp
      have hsort := sortDescJ_const_half
        ((opps.filter fun o => !isExpired o now).map (mkRankedJ now []))
        fun e he => (hmem e he).1
      have hstep : rankOpportunitiesJ now opps [] =
          Except.bind (sortDescJ ((opps.filter fun o => !isExpired o now).map
              (mkRankedJ now [])))
            (fun sorted => .ok ⟨sorted, opps.length,
              (opps.filter fun o => !isExpired o now).length,
              opps.length - (opps.filter fun o => !isExpired o now).length⟩) := by
        unfold rankOpportunitiesJ
        rw [if_neg hv]
        rfl
      refine ⟨⟨(opps.filter fun o => !isExpired o now).map (mkRankedJ now []),
        opps.length, (opps.filter fun o => !isExpired o now).length,
        opps.length - (opps.filter fun o => !isExpired o now).length⟩, ?_, ?_, hmem⟩
      · rw [hstep, hsort]
        rfl
      · simp
  · intro s h1 h2
    unfold parseRankingsResponse
    rw [h1, h2]

/-- Witness for C2 (amended): concrete outright-failure outcomes.  The
scoring response "no scores today" admits no JSON recovery, so the ladder
returns the empty list, and the merge over one valid opportunity then
produces one fully-defaulted entry. -/
theorem rank_opportunities_outright_failure_fallback_witness :
    parseRankingsResponse ("no scores today".data) = Json.arr [] ∧
    ∃ res, rankOpportunitiesJ now0 [oppPlain] [] = .ok res ∧
      res.ranked_opportunities.length = 1 := by
  have h := rank_opportunities_outright_failure_fallback now0 [oppPlain]
  constructor
  · exact h.2 ("no scores today".data) (by rfl) (by rfl)
  · rcases h.1 with ⟨res, hok, hlen, _⟩
    exact ⟨res, hok, by rw [hlen]; decide⟩

/-- The text on which chunk_text loops forever with chunk_size 10 and
overlap 8: six letters, a space, then twenty letters. -/
def loopText : Str := ("aaaaaa aaaaaaaaaaaaaaaaaaaa").data

/-- C3 counterexample.
With chunk_size = 10 and overlap = 8 (a legal pair: 0 ≤ 8 < 10) on this
27-character text, the first window cuts at the space (end = 7), so the next
start is 7 - 8, clamped to 0: the window start does not increase, the loop
state repeats exactly and chunk_text never terminates.  Concretely, the cut
from start 0 is 7, the next start is 0 again, and the fuelled loop runs out
of a fuel bound that suffices for every strictly-advancing run. -/
theorem chunk_text_nonterminating_counterexample :
    computeEnd loopText 10 0 = 7 ∧ computeEnd loopText 10 0 - 8 = 0 ∧
    chunkText loopText 10 8 = none := by
  refine ⟨by decide, by decide, by decide⟩

lemma sentenceEnd_lb (window : Str) (cs start : Nat) (l : List Str) (e : Nat)
    (hsep : ∀ s ∈ l, s.length = 2)
    (h : sentenceEnd window cs start l = some e) :
    start + cs / 2 + 3 ≤ e := by
  induction l with
  | nil => exact absurd h (by simp [sentenceEnd])
  | cons sep rest ih =>
    unfold sentenceEnd at h
    cases hrf : rfindSub sep window with
    | none =>
      simp only [hrf] at h
      exact ih (fun s hs => hsep s (List.mem_cons_of_mem sep hs)) h
    | some i =>
      simp only [hrf] at h
      by_cases hi : cs / 2 < i
      · rw [if_pos hi] at h
        have h2 := hsep sep (List.mem_cons_self sep rest)
        injection h with he
        omega
      · rw [if_neg hi] at h
        exact ih (fun s hs => hsep s (List.mem_cons_of_mem sep hs)) h

lemma sentenceSeps_len : ∀ s ∈ sentenceSeps, s.length = 2 := by decide

lemma computeEnd_lb (text : Str) (cs start : Nat) :
    start + cs ≤ computeEnd text cs start ∨
    start + cs / 2 + 2 ≤ computeEnd text cs start := by
  unfold computeEnd
  by_cases h : start + cs < text.length
  · rw [if_pos h]
    cases hse : sentenceEnd (pySlice text start (start + cs)) cs start sentenceSeps with
    | some e =>
      right
      show start + cs / 2 + 2 ≤ e
      have := sentenceEnd_lb (pySlice text start (start + cs)) cs start sentenceSeps e
        sentenceSeps_len hse
      omega
    | none =>
      cases hw : strRFindChar ' ' (pySlice text start (start + cs)) with
      | none => left; exact le_refl _
      | some i =>
        by_cases hi : cs / 2 < i
        · right
          show start + cs / 2 + 2 ≤ if cs / 2 < i then start + i + 1 else start + cs
          rw [if_pos hi]
          omega
        · left
          show start + cs ≤ if cs / 2 < i then start + i + 1 else start + cs
          rw [if_neg hi]
  · rw [if_neg h]
    left
    exact le_refl _

lemma chunkLoop_completes (text : Str) (cs ov : Nat)
    (hprog : ∀ s, s < text.length → s < computeEnd text cs s - ov) :
    ∀ fuel start acc, text.length - start < fuel →
      ∃ l, chunkLoop text cs ov fuel start acc = some l := by
  intro fuel
  induction fuel with
  | zero => intro start acc h; exact absurd h (Nat.not_lt_zero _)
  | succ f ih =>
    intro start acc h
    by_cases hs : start < text.length
    · have hp := hprog start hs
      have h2 : text.length - (computeEnd text cs start - ov) < f := by omega
      rcases ih (computeEnd text cs start - ov)
        (if (pyStrip (pySlice text start (computeEnd text cs start))).isEmpty then acc
         else acc ++ [pyStrip (pySlice text start (computeEnd text cs start))]) h2 with ⟨l, hl⟩
      refine ⟨l, ?_⟩
      simp only [chunkLoop]
      rw [if_pos hs]
      exact hl
    · refine ⟨acc, ?_⟩
      simp only [chunkLoop]
      rw [if_neg hs]

/-- C3 as amended.
chunk_text terminates with the window start strictly increasing on every
iteration provided the overlap is at most chunk_size / 2 + 1 (in addition to
overlap < chunk_size): every cut advances the window end past
start + chunk_size / 2 + 1, so the next start exceeds the current one.  For
larger overlaps the loop can fail to advance and never terminate, as the
counterexample shows. -/
theorem chunk_text_terminates_when_overlap_small (text : Str) (cs ov : Nat)
    (h1 : ov < cs) (h2 : ov ≤ cs / 2 + 1) :
    (∃ l, chunkText text cs ov = some l) ∧
    (∀ start, start < text.length → start < computeEnd text cs start - ov) := by
  have hprog : ∀ s, s < text.length → s < computeEnd text cs s - ov := by
    intro s hs
    rcases computeEnd_lb text cs s with hlb | hlb <;> omega
  refine ⟨?_, hprog⟩
  unfold chunkText
  by_cases he : text.isEmpty
  · exact ⟨[], by rw [if_pos he]⟩
  · rw [if_neg he]
    by_cases hlen : text.length ≤ cs
    · exact ⟨[text], by rw [if_pos hlen]⟩
    · rw [if_neg hlen]
      exact chunkLoop_completes text cs ov hprog (text.length + 1) 0 [] (by omega)

/-- Witness text for C3 (amended): longer than the chunk size. -/
def chunkWitnessText : Str := ("hello world this is a chunk test string okay").data

/-- Witness for C3 (amended): chunk_size 10 and overlap 3 terminate and the
first window strictly advances. -/
theorem chunk_text_terminates_when_overlap_small_witness :
    (∃ l, chunkText chunkWitnessText 10 3 = some l) ∧
    0 < computeEnd chunkWitnessText 10 0 - 3 := by
  have h := chunk_text_terminates_when_overlap_small chunkWitnessText 10 3
    (by decide) (by decide)
  exact ⟨h.1, h.2 0 (by decide)⟩

lemma rawOpt_optRaw {α : Type} (x : Option α) : rawOpt (optRaw x) = x := by
  cases x <;> rfl

lemma rawD_optRaw_some {α : Type} (d a : α) : rawD d (optRaw (some a)) = a := rfl

lemma optRaw_some {α : Type} (a : α) : optRaw (some a) = .val a := rfl

lemma optRaw_none {α : Type} : optRaw (none : Option α) = .null := rfl

lemma rawD_val {α : Type} (d a : α) : rawD d (.val a) = a := rfl

lemma rawSub_val {α : Type} (e a : α) : rawSub e (.val a) = a := rfl

lemma mkOpportunity_ok_fields (raw : RawOpportunity) (o : Opportunity)
    (h : mkOpportunity raw = .ok o) :
    (∃ ids, raw.id = .val ids ∧ o.id = ids) ∧
    (∃ en, raw.event_name = .val en ∧ o.event_name = en) ∧
    o.event_type = some (rawD .other raw.event_type) ∧
    o.description = rawOpt raw.description ∧
    o.dates = some (mkDateInfo (rawSub emptyRawDateInfo raw.dates)) ∧
    o.location = some (mkLocation (rawSub emptyRawLocation raw.location)) ∧
    o.compensation = some (mkCompensation (rawSub emptyRawCompensation raw.compensation)) ∧
    o.application = some (mkApplication (rawSub emptyRawApplication raw.application)) ∧
    o.target_audience = some (rawD [] raw.target_audience) ∧
    o.expected_audience_size = rawOpt raw.expected_audience_size ∧
    o.keywords_matched = some (rawD [] raw.keywords_matched) ∧
    o.source_url = rawOpt raw.source_url ∧
    ((∃ q, raw.confidence_score = .val q ∧ 0 ≤ q ∧ q ≤ 1 ∧ o.confidence_score = some q) ∨
     ((raw.confidence_score = .null ∨ raw.confidence_score = .absent) ∧
       o.confidence_score = some (1/2 : ℚ))) := by
  unfold mkOpportunity at h
  rcases hid : raw.id with _ | _ | ids <;> simp only [hid] at h <;>
    try exact Except.noConfusion h
  rcases hen : raw.event_name with _ | _ | en <;> simp only [hen] at h <;>
    try exact Except.noConfusion h
  rcases hcs : raw.confidence_score with _ | _ | q <;> simp only [hcs] at h
  · injection h with hcore
    subst hcore
    refine ⟨⟨ids, rfl, rfl⟩, ⟨en, rfl, rfl⟩, rfl, rfl, rfl, rfl, rfl, rfl, rfl, rfl, rfl, rfl, ?_⟩
    exact Or.inr ⟨Or.inr rfl, rfl⟩
  · injection h with hcore
    subst hcore
    refine ⟨⟨ids, rfl, rfl⟩, ⟨en, rfl, rfl⟩, rfl, rfl, rfl, rfl, rfl, rfl, rfl, rfl, rfl, rfl, ?_⟩
    exact Or.inr ⟨Or.inl rfl, rfl⟩
  · by_cases hq : (decide (0 ≤ q) && decide (q ≤ 1)) = true
    · rw [if_pos hq] at h
      injection h with hcore
      subst hcore
      have hq2 := Bool.and_eq_true_iff.mp hq
      refine ⟨⟨ids, rfl, rfl⟩, ⟨en, rfl, rfl⟩, rfl, rfl, rfl, rfl, rfl, rfl, rfl, rfl, rfl, rfl, ?_⟩
      exact Or.inl ⟨q, rfl, of_decide_eq_true hq2.1, of_decide_eq_true hq2.2, rfl⟩
    · rw [if_neg hq] at h
      exact Except.noConfusion h

/-- C5.
Whenever a raw record validates into an Opportunity, any null or absent
dates/location/compensation/application field materialises as the zero-value
default structure; null or absent list fields become empty lists; null or
absent boolean fields become false; and every constructed Opportunity
satisfies the invariant that its nested sub-records, lists and the booleans
inside them are non-null. -/
theorem opportunity_never_null (raw : RawOpportunity) (o : Opportunity)
    (h : mkOpportunity raw = .ok o) :
    ((raw.dates = .null ∨ raw.dates = .absent) → o.dates = some ⟨none, none, none⟩) ∧
    ((raw.location = .null ∨ raw.location = .absent) →
      o.location = some ⟨none, none, none, none, some false, some false⟩) ∧
    ((raw.compensation = .null ∨ raw.compensation = .absent) →
      o.compensation = some ⟨some false, some .unknown, none, some ("USD".data),
        some false, some false, none⟩) ∧
    ((raw.application = .null ∨ raw.application = .absent) →
      o.application = some ⟨none, none, some []⟩) ∧
    ((raw.target_audience = .null ∨ raw.target_audience = .absent) →
      o.target_audience = some []) ∧
    ((raw.keywords_matched = .null ∨ raw.keywords_matched = .absent) →
      o.keywords_matched = some []) ∧
    (∀ rl, raw.location = .val rl →
      o.location = some (mkLocation rl) ∧
      ((rl.is_virtual = .null ∨ rl.is_virtual = .absent) →
        (mkLocation rl).is_virtual = some false) ∧
      ((rl.has_virtual_option = .null ∨ rl.has_virtual_option = .absent) →
        (mkLocation rl).has_virtual_option = some false)) ∧
    (∀ rc, raw.compensation = .val rc →
      o.compensation = some (mkCompensation rc) ∧
      ((rc.is_paid = .null ∨ rc.is_paid = .absent) →
        (mkCompensation rc).is_paid = some false) ∧
      ((rc.includes_travel = .null ∨ rc.includes_travel = .absent) →
        (mkCompensation rc).includes_travel = some false) ∧
      ((rc.includes_accommodation = .null ∨ rc.includes_accommodation = .absent) →
        (mkCompensation rc).includes_accommodation = some false)) ∧
    (∀ ra, raw.application = .val ra →
      o.application = some (mkApplication ra) ∧
      ((ra.requirements = .null ∨ ra.requirements = .absent) →
        (mkApplication ra).requirements = some [])) ∧
    o.dates.isSome = true ∧ o.location.isSome = true ∧ o.compensation.isSome = true ∧
    o.application.isSome = true ∧ o.target_audience.isSome = true ∧
    o.keywords_matched.isSome = true ∧
    (∀ L, o.location = some L → L.is_virtual.isSome = true ∧
      L.has_virtual_option.isSome = true) ∧
    (∀ C, o.compensation = some C → C.is_paid.isSome = true ∧
      C.includes_travel.isSome = true ∧ C.includes_accommodation.isSome = true ∧
      C.compensation_type.isSome = true) ∧
    (∀ A, o.application = some A → A.requirements.isSome = true) := by
  obtain ⟨_, _, _, _, hdates, hloc, hcomp, happ, hta, _, hkm, _, _⟩ :=
    mkOpportunity_ok_fields raw o h
  refine ⟨?_, ?_, ?_, ?_, ?_, ?_, ?_, ?_, ?_, ?_, ?_, ?_, ?_, ?_, ?_, ?_, ?_, ?_⟩
  · rintro (hr | hr) <;> rw [hdates, hr] <;> rfl
  · rintro (hr | hr) <;> rw [hloc, hr] <;> rfl
  · rintro (hr | hr) <;> rw [hcomp, hr] <;> rfl
  · rintro (hr | hr) <;> rw [happ, hr] <;> rfl
  · rintro (hr | hr) <;> rw [hta, hr] <;> rfl
  · rintro (hr | hr) <;> rw [hkm, hr] <;> rfl
  · intro rl hr
    refine ⟨by rw [hloc, hr]; rfl, ?_, ?_⟩ <;> rintro (hb | hb) <;>
      simp [mkLocation, hb, rawD]
  · intro rc hr
    refine ⟨by rw [hcomp, hr]; rfl, ?_, ?_, ?_⟩ <;> rintro (hb | hb) <;>
      simp [mkCompensation, hb, rawD]
  · intro ra hr
    refine ⟨by rw [happ, hr]; rfl, ?_⟩
    rintro (hb | hb) <;> simp [mkApplication, hb, rawD]
  · rw [hdates]; rfl
  · rw [hloc]; rfl
  · rw [hcomp]; rfl
  · rw [happ]; rfl
  · rw [hta]; rfl
  · rw [hkm]; rfl
  · intro L hL
    rw [hloc] at hL
    injection hL with hL
    subst hL
    exact ⟨rfl, rfl⟩
  · intro C hC
    rw [hcomp] at hC
    injection hC with hC
    subst hC
    exact ⟨rfl, rfl, rfl, rfl⟩
  · intro A hA
    rw [happ] at hA
    injection hA with hA
    subst hA
    rfl

/-- Witness raw record for C5: null nested records, lists and booleans. -/
def rawAllNull : RawOpportunity :=
  { id := .val ("x1".data)
    event_name := .val ("Summit".data)
    event_type := .null
    description := .null
    dates := .null
    location := .null
    compensation := .null
    application := .null
    target_audience := .null
    expected_audience_size := .null
    keywords_matched := .null
    source_url := .null
    confidence_score := .null }

/-- Witness for C5: the all-null record validates and its nested fields come
out as the zero-value structures. -/
theorem opportunity_never_null_witness :
    ∃ o, mkOpportunity rawAllNull = .ok o ∧ o.dates = some ⟨none, none, none⟩ ∧
      o.location = some ⟨none, none, none, none, some false, some false⟩ ∧
      o.target_audience = some [] := by
  refine ⟨mkOpportunityCore rawAllNull ("x1".data) ("Summit".data) (some (1/2 : ℚ)), rfl,
    ?_, ?_, ?_⟩
  · exact (opportunity_never_null rawAllNull _ rfl).1 (Or.inl rfl)
  · exact (opportunity_never_null rawAllNull _ rfl).2.1 (Or.inl rfl)
  · exact (opportunity_never_null rawAllNull _ rfl).2.2.2.2.1 (Or.inl rfl)

/-- Witness raw record for C7 counterexample: well-formed except for an
out-of-range confidence score of 2. -/
def rawScore15 : RawOpportunity :=
  { id := .val ("x2".data)
    event_name := .val ("Expo".data)
    event_type := .absent
    description := .absent
    dates := .absent
    location := .absent
    compensation := .absent
    application := .absent
    target_audience := .absent
    expected_audience_size := .absent
    keywords_matched := .absent
    source_url := .absent
    confidence_score := .val (2 : ℚ) }

/-- C7 counterexample.
A record whose confidence_score is 1.5 is not clamped to 0.5: the pydantic
range validator raises, so construction fails and
_validate_and_fix_opportunities skips the record entirely (no Opportunity is
produced), contradicting the claim that the record is not rejected. -/
theorem confidence_score_out_of_range_rejected :
    mkOpportunity rawScore15 = .error () ∧
    validateFixOne [] [] rawScore15 = none ∧
    validateAndFix (fun _ => []) [] [rawScore15] = [] := by
  exact ⟨by rfl, by rfl, by rfl⟩

/-- C7 as amended.
An absent or null confidence_score defaults to 0.5 on a successfully
constructed Opportunity; a present score outside [0, 1] is not clamped but
raises a ValidationError, so the record is rejected; a present in-range score
is kept unchanged. -/
theorem confidence_score_default_and_range (raw : RawOpportunity) :
    (∀ o, (raw.confidence_score = .null ∨ raw.confidence_score = .absent) →
      mkOpportunity raw = .ok o → o.confidence_score = some (1/2 : ℚ)) ∧
    (∀ q, raw.confidence_score = .val q → (q < 0 ∨ 1 < q) →
      mkOpportunity raw = .error ()) ∧
    (∀ o q, raw.confidence_score = .val q → mkOpportunity raw = .ok o →
      o.confidence_score = some q) := by
  refine ⟨?_, ?_, ?_⟩
  · intro o hr h
    rcases (mkOpportunity_ok_fields raw o h).2.2.2.2.2.2.2.2.2.2.2.2 with
      ⟨q, hq, _⟩ | ⟨_, hcs⟩
    · rcases hr with hr | hr <;> rw [hr] at hq <;> exact RawField.noConfusion hq
    · exact hcs
  · intro q hq hrange
    unfold mkOpportunity
    rcases hid : raw.id with _ | _ | ids <;> simp only [hid] <;> try rfl
    rcases hen : raw.event_name with _ | _ | en <;> simp only [hen] <;> try rfl
    have hfalse : (decide (0 ≤ q) && decide (q ≤ 1)) = false := by
      rcases hrange with hr | hr
      · simp [not_le.mpr hr]
      · simp [not_le.mpr hr]
    simp only [hq, hfalse, Bool.false_eq_true, if_false]
  · intro o q hq h
    rcases (mkOpportunity_ok_fields raw o h).2.2.2.2.2.2.2.2.2.2.2.2 with
      ⟨p, hp, _, _, hcs⟩ | ⟨hn, _⟩
    · rw [hq] at hp
      injection hp with hp
      rw [hcs, hp]
    · rcases hn with hn | hn <;> rw [hq] at hn <;> exact RawField.noConfusion hn

/-- Witness for C7 (amended): the all-null record gets the 0.5 default, the
out-of-range record is rejected. -/
theorem confidence_score_default_and_range_witness :
    (mkOpportunityCore rawAllNull ("x1".data) ("Summit".data)
        (some (1/2 : ℚ))).confidence_score = some (1/2 : ℚ) ∧
    mkOpportunity rawScore15 = .error () := by
  constructor
  · exact (confidence_score_default_and_range rawAllNull).1 _ (Or.inl rfl) rfl
  · exact (confidence_score_default_and_range rawScore15).2.1 (2 : ℚ) rfl
      (Or.inr (by norm_num))

lemma mkDateInfo_dump (d : DateInfo) : mkDateInfo (dumpDateInfo d) = d := by
  cases d
  simp [mkDateInfo, dumpDateInfo, rawOpt_optRaw]

lemma mkLocation_dump (rl : RawLocation) :
    mkLocation (dumpLocation (mkLocation rl)) = mkLocation rl := by
  simp [mkLocation, dumpLocation, rawOpt_optRaw, optRaw_some, rawD_val]

lemma mkCompensation_dump (rc : RawCompensation) :
    mkCompensation (dumpCompensation (mkCompensation rc)) = mkCompensation rc := by
  cases hc : rc.currency <;>
    simp [mkCompensation, dumpCompensation, rawOpt_optRaw, optRaw_some, optRaw_none,
      rawD_val, hc]

lemma mkApplication_dump (ra : RawApplication) :
    mkApplication (dumpApplication (mkApplication ra)) = mkApplication ra := by
  simp [mkApplication, dumpApplication, rawOpt_optRaw, optRaw_some, rawD_val]

lemma mkOpportunity_dump (raw : RawOpportunity) (o : Opportunity)
    (h : mkOpportunity raw = .ok o) :
    mkOpportunity (dumpOpportunity o) = .ok o := by
  obtain ⟨⟨ids, hid, hoid⟩, ⟨en, hen, hoen⟩, het, hdesc, hdates, hloc, hcomp, happ, hta,
    heas, hkm, hsrc, hcs⟩ := mkOpportunity_ok_fields raw o h
  have hcs2 : ∃ q, o.confidence_score = some q ∧ 0 ≤ q ∧ q ≤ 1 := by
    rcases hcs with ⟨q, _, h0, h1, hq⟩ | ⟨_, hq⟩
    · exact ⟨q, hq, h0, h1⟩
    · exact ⟨1/2, hq, by norm_num, by norm_num⟩
  rcases hcs2 with ⟨q, hq, h0, h1⟩
  unfold mkOpportunity
  simp only [dumpOpportunity, hq, optRaw_some]
  rw [if_pos (by simp [h0, h1])]
  refine congrArg Except.ok ?_
  simp only [mkOpportunityCore, het, hdesc, hdates, hloc, hcomp, happ, hta, heas, hkm,
    hsrc, optRaw_some, rawD_val, rawSub_val, rawOpt_optRaw, mkDateInfo_dump,
    mkLocation_dump, mkCompensation_dump, mkApplication_dump]
  cases o
  simp_all

/-- C9.
Normalization is idempotent: when _validate_and_fix_opportunities accepts a
raw record with a given keyword list and produces a validated Opportunity,
feeding that Opportunity's dictionary back through the same fixes and
validation (with the same keyword list, and regardless of the fresh uuid on
the second pass) yields the identical Opportunity. -/
theorem normalization_idempotent (u u2 : Str) (kw : List Str) (raw : RawOpportunity)
    (o : Opportunity) (h : validateFixOne u kw raw = some o) :
    validateFixOne u2 kw (dumpOpportunity o) = some o := by
  unfold validateFixOne at h
  rcases hfix : fixRecord u kw raw with _ | r
  · simp only [hfix] at h
    exact Option.noConfusion h
  · simp only [hfix] at h
    cases hmk : mkOpportunity r with
    | error e =>
      simp only [hmk] at h
      exact Option.noConfusion h
    | ok o2 =>
      simp only [hmk] at h
      injection h with h2
      subst h2
      obtain ⟨⟨ids, hid, hoid⟩, ⟨en, hen, hoen⟩, _, _, _, _, _, _, _, _, hkm, _, _⟩ :=
        mkOpportunity_ok_fields r o2 hmk
      have hidne : ids ≠ [] := by
        have htr : rawTruthyStr r.id = true := by
          unfold fixRecord at hfix
          by_cases hg : (!rawTruthyStr (fixId u raw).event_name) = true
          · rw [if_pos hg] at hfix; exact Option.noConfusion hfix
          · rw [if_neg hg] at hfix
            injection hfix with hfix2
            by_cases hkw : rawTruthyList (fixId u raw).keywords_matched = true
            · rw [if_pos hkw] at hfix2
              rw [← hfix2]
              unfold fixId
              by_cases hti : rawTruthyStr raw.id = true
              · rw [if_pos hti]; exact hti
              · rw [if_neg hti]
                show (!("opp_".data ++ u).isEmpty) = true
                rfl
            · rw [if_neg hkw] at hfix2
              rw [← hfix2]
              show rawTruthyStr (fixId u raw).id = true
              unfold fixId
              by_cases hti : rawTruthyStr raw.id = true
              · rw [if_pos hti]; exact hti
              · rw [if_neg hti]
                show (!("opp_".data ++ u).isEmpty) = true
                rfl
        rw [hid] at htr
        intro hnil
        rw [hnil] at htr
        exact Bool.noConfusion htr
      have henne : en ≠ [] := by
        have htr : rawTruthyStr r.event_name = true := by
          unfold fixRecord at hfix
          by_cases hg : (!rawTruthyStr (fixId u raw).event_name) = true
          · rw [if_pos hg] at hfix; exact Option.noConfusion hfix
          · rw [if_neg hg] at hfix
            injection hfix with hfix2
            have hev : r.event_name = (fixId u raw).event_name := by
              rw [← hfix2]
              by_cases hkw : rawTruthyList (fixId u raw).keywords_matched = true
              · rw [if_pos hkw]
              · rw [if_neg hkw]
            rw [hev]
            rcases Bool.eq_false_or_eq_true (rawTruthyStr (fixId u raw).event_name)
              with ht | hf
            · exact ht
            · rw [hf] at hg
              exact absurd rfl hg
        rw [hen] at htr
        intro hnil
        rw [hnil] at htr
        exact Bool.noConfusion htr
      have hkmval : ∃ l, r.keywords_matched = .val l ∧ (l ≠ [] ∨ l = kw) := by
        unfold fixRecord at hfix
        by_cases hg : (!rawTruthyStr (fixId u raw).event_name) = true
        · rw [if_pos hg] at hfix; exact Option.noConfusion hfix
        · rw [if_neg hg] at hfix
          injection hfix with hfix2
          by_cases hkw : rawTruthyList (fixId u raw).keywords_matched = true
          · rw [if_pos hkw] at hfix2
            rcases hv : (fixId u raw).keywords_matched with _ | _ | l <;>
              rw [hv] at hkw <;> try exact Bool.noConfusion hkw
            refine ⟨l, by rw [← hfix2]; exact hv, Or.inl ?_⟩
            intro hnil
            rw [hnil] at hkw
            exact Bool.noConfusion hkw
          · rw [if_neg hkw] at hfix2
            exact ⟨kw, by rw [← hfix2], Or.inr rfl⟩
      rcases hkmval with ⟨l, hkmv, hlor⟩
      have hokm : o2.keywords_matched = some l := by rw [hkm, hkmv]; rfl
      have hfix2 : fixRecord u2 kw (dumpOpportunity o2) = some (dumpOpportunity o2) := by
        have hfid : fixId u2 (dumpOpportunity o2) = dumpOpportunity o2 := by
          unfold fixId
          rw [if_pos]
          show rawTruthyStr (.val o2.id) = true
          rw [hoid]
          show (!ids.isEmpty) = true
          cases ids with
          | nil => exact absurd rfl hidne
          | cons c cs => rfl
        unfold fixRecord
        rw [hfid]
        have hevt : rawTruthyStr (dumpOpportunity o2).event_name = true := by
          show rawTruthyStr (.val o2.event_name) = true
          rw [hoen]
          show (!en.isEmpty) = true
          cases en with
          | nil => exact absurd rfl henne
          | cons c cs => rfl
        rw [hevt]
        simp only [Bool.not_true, Bool.false_eq_true, if_false]
        have hdkm : (dumpOpportunity o2).keywords_matched = .val l := by
          show optRaw o2.keywords_matched = .val l
          rw [hokm]
          rfl
        rcases hlor with hne | hkweq
        · rw [if_pos]
          · rw [hdkm]
            show (!l.isEmpty) = true
            cases l with
            | nil => exact absurd rfl hne
            | cons c cs => rfl
        · by_cases hkl : rawTruthyList (dumpOpportunity o2).keywords_matched = true
          · rw [if_pos hkl]
          · rw [if_neg hkl]
            refine congrArg some ?_
            have : RawField.val kw = (dumpOpportunity o2).keywords_matched := by
              rw [hdkm, hkweq]
            rw [this]
      unfold validateFixOne
      simp only [hfix2]
      simp only [mkOpportunity_dump r o2 hmk]

/-- Witness raw record for C9: truthy id and event name, absent keywords
filled from the search keywords. -/
def rawForIdem : RawOpportunity :=
  { id := .absent
    event_name := .val ("DevConf".data)
    event_type := .absent
    description := .val ("talks".data)
    dates := .val ⟨.val ("2099-01-01".data), .absent, .null⟩
    location := .null
    compensation := .absent
    application := .val ⟨.null, .absent, .null⟩
    target_audience := .null
    expected_audience_size := .absent
    keywords_matched := .absent
    source_url := .null
    confidence_score := .absent }

/-- Witness for C9: the record is accepted on the first pass (with uuid hex
"ab12" and keyword list ["ml"]) and re-validating its dump with a different
uuid reproduces the same Opportunity. -/
theorem normalization_idempotent_witness :
    ∃ o, validateFixOne ("ab12".data) ["ml".data] rawForIdem = some o ∧
      validateFixOne ("cd34".data) ["ml".data] (dumpOpportunity o) = some o := by
  refine ⟨mkOpportunityCore (fixId ("ab12".data) rawForIdem
      |> fun r => { r with keywords_matched := .val ["ml".data] })
      ("opp_ab12".data) ("DevConf".data) (some (1/2 : ℚ)), ?_, ?_⟩
  · rfl
  · exact normalization_idempotent ("ab12".data) ("cd34".data) ["ml".data] rawForIdem _ rfl

/-- C8 counterexample.
On the input consisting of exactly the object with an "opportunities" member
holding the number 5, _parse_opportunities returns that number itself, not a
list: the "always returns a list" part of the claim fails. -/
theorem parse_opportunities_nonlist_counterexample :
    (parseOpportunities (("\x7b\"opportunities\": 5\x7d").data)).isArr = false := by rfl

lemma skipWs_not_ws (c : Char) (t : Str) (hc : isJsonWs c = false) :
    skipWs (c :: t) = c :: t := by
  unfold skipWs
  simp [List.dropWhile_cons, hc]

lemma parseValue_bracket_isArr (fuel : Nat) (t : Str) (v2 : Json) (r : Str)
    (hp : parseValue (fuel + 1) ('[' :: t) = some (v2, r)) : v2.isArr = true := by
  simp only [parseValue] at hp
  rw [if_neg (show ¬(('[' : Char) = 'n') by decide),
    if_neg (show ¬(('[' : Char) = 't') by decide),
    if_neg (show ¬(('[' : Char) = 'f') by decide),
    if_neg (show ¬(('[' : Char) = '"') by decide)] at hp
  simp only [if_true] at hp
  split at hp
  · injection hp with h2
    cases h2
    rfl
  · cases hpe : parseElems fuel (skipWs t) with
    | none =>
      rw [hpe] at hp
      exact Option.noConfusion hp
    | some pr =>
      rw [hpe] at hp
      injection hp with h2
      cases h2
      rfl

lemma jsonLoads_head_bracket_isArr (s : Str) (v : Json)
    (hh : s.head? = some '[') (h : jsonLoads s = some v) : v.isArr = true := by
  cases s with
  | nil => exact Option.noConfusion hh
  | cons c t =>
    injection hh with hh2
    subst hh2
    unfold jsonLoads at h
    rw [skipWs_not_ws '[' t (by decide)] at h
    simp only [List.length_cons] at h
    cases hp : parseValue (t.length + 1 + 1) ('[' :: t) with
    | none =>
      simp only [hp] at h
      exact Option.noConfusion h
    | some pr =>
      obtain ⟨v2, r⟩ := pr
      simp only [hp] at h
      by_cases he : (skipWs r).isEmpty = true
      · rw [if_pos he] at h
        injection h with h2
        subst h2
        exact parseValue_bracket_isArr (t.length + 1) t v2 r hp
      · rw [if_neg he] at h
        exact Option.noConfusion h

lemma findIdx?_head (p : Char → Bool) (s : List Char) (i : Nat)
    (h : s.findIdx? p = some i) : ∃ c, (s.drop i).head? = some c ∧ p c = true := by
  induction s generalizing i with
  | nil => simp [List.findIdx?_nil] at h
  | cons x t ih =>
    rw [List.findIdx?_cons] at h
    by_cases hx : p x = true
    · rw [if_pos hx] at h
      injection h with h2
      subst h2
      exact ⟨x, rfl, hx⟩
    · rw [if_neg hx, List.findIdx?_succ] at h
      cases hfi : List.findIdx? p t with
      | none => rw [hfi] at h; exact Option.noConfusion h
      | some k =>
        rw [hfi] at h
        rw [Option.map_some'] at h
        injection h with h2
        subst h2
        exact ih k hfi

lemma bracketParse_isArr (raw : Str) (v : Json)
    (h : bracketParse raw '[' ']' = some v) : v.isArr = true := by
  unfold bracketParse at h
  cases hfi : strFindChar '[' raw with
  | none => rw [hfi] at h; exact Option.noConfusion h
  | some i =>
    cases hfj : strRFindChar ']' raw with
    | none => rw [hfi, hfj] at h; exact Option.noConfusion h
    | some j =>
      rw [hfi, hfj] at h
      simp only [] at h
      by_cases hij : i < j + 1
      · rw [if_pos hij] at h
        have hhead : (pySlice raw i (j + 1)).head? = some '[' := by
          obtain ⟨c, hc1, hc2⟩ := findIdx?_head (· == '[') raw i hfi
          have hc3 : c = '[' := by simpa using hc2
          subst hc3
          unfold pySlice
          rw [List.head?_take, if_neg (by omega)]
          exact hc1
        exact jsonLoads_head_bracket_isArr _ v hhead h
      · rw [if_neg hij] at h
        exact Option.noConfusion h

/-- C8 as amended.
For every input string, _parse_opportunities returns without raising; when
the direct parse and both delimiter-substring strategies fail, it returns the
empty list; and the returned value is always a list except when a
successfully parsed object carries an "opportunities" member, which is
returned as-is even when it is not a list. -/
theorem parse_opportunities_shape (raw : Str) :
    (jsonLoads raw = none → bracketParse raw '[' ']' = none →
      bracketParse raw ('\x7b') ('\x7d') = none →
      parseOpportunities raw = Json.arr []) ∧
    ((parseOpportunities raw).isArr = true ∨
      ∃ kvs, objGet kvs oppKey = some (parseOpportunities raw) ∧
        (jsonLoads raw = some (.obj kvs) ∨
          bracketParse raw ('\x7b') ('\x7d') = some (.obj kvs))) := by
  constructor
  · intro h1 h2 h3
    unfold parseOpportunities
    rw [h1, h2, h3]
  · unfold parseOpportunities
    cases hjl : jsonLoads raw with
    | some v =>
      cases v with
      | null => left; rfl
      | bool b => left; rfl
      | num q => left; rfl
      | str s => left; rfl
      | arr xs => left; rfl
      | obj kvs =>
        cases hg : objGet kvs oppKey with
        | some w =>
          right
          refine ⟨kvs, ?_, Or.inl rfl⟩
          show objGet kvs oppKey =
            some (match objGet kvs oppKey with
              | some v => v
              | none => Json.arr [Json.obj kvs])
          rw [hg]
        | none =>
          left
          show (match objGet kvs oppKey with
            | some v => v
            | none => Json.arr [Json.obj kvs]).isArr = true
          rw [hg]
          rfl
    | none =>
      cases hbr : bracketParse raw '[' ']' with
      | some v =>
        left
        exact bracketParse_isArr raw v hbr
      | none =>
        cases hbc : bracketParse raw ('\x7b') ('\x7d') with
        | some v =>
          cases v with
          | obj kvs =>
            cases hg : objGet kvs oppKey with
            | some w =>
              right
              refine ⟨kvs, ?_, Or.inr rfl⟩
              show objGet kvs oppKey =
                some (match objGet kvs oppKey with
                  | some v => v
                  | none => Json.arr [Json.obj kvs])
              rw [hg]
            | none =>
              left
              show (match objGet kvs oppKey with
                | some v => v
                | none => Json.arr [Json.obj kvs]).isArr = true
              rw [hg]
              rfl
          | null => left; rfl
          | bool b => left; rfl
          | num q => left; rfl
          | str s => left; rfl
          | arr xs => left; rfl
        | none =>
          left
          rfl

/-- Witness for C8 (amended): an input without JSON and without delimiters
yields the empty list through the theorem. -/
theorem parse_opportunities_shape_witness :
    parseOpportunities (("nothing here").data) = Json.arr [] :=
  (parse_opportunities_shape (("nothing here").data)).1 (by rfl) (by rfl) (by rfl)

/-- C6 counterexample.
"[1,2]" is a valid two-element JSON array and "a[b] [1,2]" embeds it after
the prose "a[b] " (the whole string is not valid JSON), yet
_parse_opportunities returns the empty list: the substring from the first
'[' to the last ']' is "[b] [1,2]", which does not parse, and no braces
exist, so the embedded array is not recovered. -/
theorem parse_opportunities_embedded_counterexample :
    (jsonLoads (("[1,2]").data)).map Json.isArr = some true ∧
    (match jsonLoads (("[1,2]").data) with
      | some (Json.arr xs) => xs.length
      | _ => 0) = 2 ∧
    jsonLoads (("a[b] [1,2]").data) = none ∧
    parseOpportunities (("a[b] [1,2]").data) = Json.arr [] := by
  refine ⟨by rfl, by rfl, by rfl, by rfl⟩

lemma findIdx?_not_mem (c : Char) (s : Str) (h : c ∉ s) :
    s.findIdx? (· == c) = none := by
  rw [List.findIdx?_eq_none_iff]
  intro x hx
  by_cases hxc : x = c
  · exact absurd (hxc ▸ hx) h
  · exact beq_eq_false_iff_ne.mpr hxc

lemma strFindChar_embedded (c : Char) (pre mid post : Str)
    (hpre : c ∉ pre) (hhead : mid.head? = some c) :
    strFindChar c (pre ++ mid ++ post) = some pre.length := by
  cases mid with
  | nil => exact Option.noConfusion hhead
  | cons a t =>
    injection hhead with ha
    unfold strFindChar
    rw [List.append_assoc, List.findIdx?_append, findIdx?_not_mem c pre hpre,
      Option.none_or, List.findIdx?_append, List.findIdx?_cons,
      if_pos (by simp [ha])]
    simp

lemma strRFindChar_embedded (c : Char) (pre mid post : Str)
    (hpost : c ∉ post) (hlast : mid.getLast? = some c) :
    strRFindChar c (pre ++ mid ++ post) =
      some (pre.length + mid.length - 1) := by
  have hrevhead : mid.reverse.head? = some c := by
    rw [List.head?_reverse]
    exact hlast
  have hmidne : mid ≠ [] := by
    intro hnil
    rw [hnil] at hlast
    exact Option.noConfusion hlast
  have hfind : strFindChar c (pre ++ mid ++ post).reverse = some post.length := by
    have hrw : (pre ++ mid ++ post).reverse =
        post.reverse ++ mid.reverse ++ pre.reverse := by
      rw [List.reverse_append, List.reverse_append, List.append_assoc]
    rw [hrw]
    have := strFindChar_embedded c post.reverse mid.reverse pre.reverse
      (fun hm => hpost (List.mem_reverse.mp hm)) hrevhead
    rw [this, List.length_reverse]
  unfold strRFindChar
  rw [hfind]
  have hlen : 1 ≤ mid.length := by
    cases mid with
    | nil => exact absurd rfl hmidne
    | cons a t => simp
  refine congrArg some ?_
  simp only [List.length_append]
  omega

/-- C6 as amended.
When a valid JSON array is embedded in a larger string whose leading prose
contains no opening bracket and whose trailing prose contains no closing
bracket (so the array literal owns the first opening and last closing
bracket of the whole string), and the whole string itself is not valid JSON,
_parse_opportunities recovers exactly the embedded array.  Prose containing
those delimiter characters can defeat the recovery, as the counterexample
shows. -/
theorem parse_opportunities_embedded (pre arrs post : Str) (l : List Json)
    (hparse : jsonLoads arrs = some (Json.arr l))
    (hwhole : jsonLoads (pre ++ arrs ++ post) = none)
    (hpre : '[' ∉ pre)
    (hpost : ']' ∉ post)
    (hhead : arrs.head? = some '[')
    (hlast : arrs.getLast? = some ']') :
    parseOpportunities (pre ++ arrs ++ post) = Json.arr l := by
  have hlen : 1 ≤ arrs.length := by
    cases arrs with
    | nil => exact Option.noConfusion hhead
    | cons a t => simp
  have hfind := strFindChar_embedded '[' pre arrs post hpre hhead
  have hrfind := strRFindChar_embedded ']' pre arrs post hpost hlast
  have hslice : pySlice (pre ++ arrs ++ post) pre.length
      (pre.length + arrs.length - 1 + 1) = arrs := by
    unfold pySlice
    rw [List.append_assoc, List.drop_left]
    have h2 : pre.length + arrs.length - 1 + 1 - pre.length = arrs.length := by omega
    rw [h2, List.take_left]
  have hbp : bracketParse (pre ++ arrs ++ post) '[' ']' = some (Json.arr l) := by
    unfold bracketParse
    rw [hfind, hrfind]
    show (if pre.length < pre.length + arrs.length - 1 + 1 then
        jsonLoads (pySlice (pre ++ arrs ++ post) pre.length
          (pre.length + arrs.length - 1 + 1))
      else none) = some (Json.arr l)
    rw [if_pos (by omega), hslice]
    exact hparse
  unfold parseOpportunities
  rw [hwhole, hbp]

/-- Witness for C6 (amended): prose around "[true]" with clean delimiters. -/
theorem parse_opportunities_embedded_witness :
    parseOpportunities (("see: ").data ++ ("[true]").data ++ (" thanks").data) =
      Json.arr [Json.bool true] :=
  parse_opportunities_embedded (("see: ").data) (("[true]").data) ((" thanks").data)
    [Json.bool true] (by rfl) (by rfl) (by decide) (by decide) (by rfl) (by rfl)

end OppScout
